import Mathlib

/-!
# Verification of the ReadySetRole resume-tailoring app (src/app.py)

This file gives a shallow embedding of the Python/Streamlit program
`src/app.py`.  Python strings are modelled as `List Char` (`PyStr`), the
Streamlit session state as an explicit `Session` record, and the page
script's event handlers as explicit state-passing functions in a small
state-plus-exception monad `M`.  Calls into external libraries (the
Gemini client, the `re` regex engine, `time.sleep`) are modelled by
oracles passed in the evaluation context; every remote-API interaction
is recorded in an action trace so that temporal claims about uploads,
polls and request attachments can be stated and settled.
-/

namespace ReadySetRole

/-- Python strings, modelled as lists of characters. -/
abbrev PyStr := List Char

/-- Python `str.isspace` characters relevant to `str.strip()` (ASCII set). -/
def isPySpace (c : Char) : Bool :=
  c = ' ' || c = '\t' || c = '\n' || c = '\r' || c = '\x0b' || c = '\x0c'

/-- Python `str.lstrip()`. -/
def lstrip (s : PyStr) : PyStr := s.dropWhile isPySpace

/-- Python `str.rstrip()`. -/
def rstrip (s : PyStr) : PyStr := (s.reverse.dropWhile isPySpace).reverse

/-- Python `str.strip()`. -/
def pyStrip (s : PyStr) : PyStr := lstrip (rstrip s)

/-- Python `str.upper()` (ASCII). -/
def pyUpper (s : PyStr) : PyStr := s.map Char.toUpper

/-- Python `str.lower()` (ASCII). -/
def pyLower (s : PyStr) : PyStr := s.map Char.toLower

/-- The `[END_RESUME]` marker used by `ends_with_end_resume` and
`trim_after_end_resume` in src/app.py. -/
def END_RESUME : PyStr := "[END_RESUME]".data

/-- Python `haystack.find(pat)` (src/app.py line 120, specialised to list
strings): the least index at which `pat` occurs as a substring, `none`
when there is no occurrence (Python returns `-1`). -/
def find_sub (pat : PyStr) : PyStr → Option Nat
  | [] => if pat.isPrefixOf ([] : PyStr) then some 0 else none
  | c :: rest =>
      if pat.isPrefixOf (c :: rest) then some 0
      else (find_sub pat rest).map (· + 1)

/-- `ends_with_end_resume` from src/app.py lines 116–117:
`text.strip().endswith("[END_RESUME]")`. -/
def ends_with_end_resume (text : PyStr) : Bool :=
  END_RESUME.isSuffixOf (pyStrip text)

/-- `trim_after_end_resume` from src/app.py lines 119–123:
keep everything up to and including the first `[END_RESUME]`. -/
def trim_after_end_resume (text : PyStr) : PyStr :=
  match find_sub END_RESUME text with
  | none => text
  | some idx => text.take (idx + END_RESUME.length)

/-- `load_default_identity` from src/app.py lines 50–62 (the literal
default system-instruction string). -/
def load_default_identity : PyStr :=
  ("You are ReadysetRole — a resume optimization assistant that turns a user\x27s master resume " ++
   "and a job description (JD) into an ATS-safe tailored resume and a concise, evidence-based cover letter.\n\n" ++
   "Rules:\n" ++
   "- Never fabricate titles, employers, tools, certs, or metrics.\n" ++
   "- Use only what the user provides or has explicitly verified.\n" ++
   "- Keep outputs plain-text, single column, ATS-safe.\n" ++
   "- If impact numbers are missing, insert <METRIC_TBD> and ask a precise follow-up.\n" ++
   "- Be concise, confident, and non-repetitive.\n" ++
   "- Persist the user\x27s master resume for the session; whenever a new JD is provided, immediately tailor the resume to it.\n" ++
   "- Always return a non-empty response — never output \x27None\x27.\n").data

/-- The tag names searched by `parse_xmlish_instr` (src/app.py line 66). -/
def xml_sections : List PyStr :=
  ["Role".data, "Goal".data, "Rules".data, "Knowledge".data,
   "SpecializedActions".data, "Guidelines".data]

/-- `parse_xmlish_instr` from src/app.py lines 64–72.  The call
`_re.search(fr"<tag>(.*?)</tag>", txt, DOTALL|IGNORECASE)` into the
external `re` library is modelled by the oracle `search`, which returns
the matched group 1 when a `<tag>…</tag>` section is found in `txt`.
The function concatenates a `"tag:\n{group.strip()}\n\n"` chunk for each
found section, strips the joined result, and falls back to
`load_default_identity ()` when that result is empty (Python `or`). -/
def parse_xmlish_instr (search : PyStr → PyStr → Option PyStr) (txt : PyStr) : PyStr :=
  let chunks := xml_sections.filterMap (fun tag =>
    (search tag txt).map (fun g => tag ++ ":\n".data ++ pyStrip g ++ "\n\n".data))
  let r := pyStrip chunks.flatten
  if r = [] then load_default_identity else r

/-! ## `extract_text_from_response` (src/app.py lines 96–114)

The `google.genai` response object is modelled structurally:
`getattr(x, f, None)` on an absent attribute becomes an `Option` field.
The Python body is wrapped in `try: … except Exception: pass` and ends
with `return ""`; in this total model attribute access cannot raise, and
the fall-through default is the empty string. -/

structure GPart where
  text : Option PyStr
deriving DecidableEq, Repr

structure GContent where
  parts : Option (List GPart)
deriving DecidableEq, Repr

structure GCandidate where
  content : Option GContent
deriving DecidableEq, Repr

structure GResponse where
  text : Option PyStr
  candidates : Option (List GCandidate)
deriving DecidableEq, Repr

/-- Python `sep.join(xs)`. -/
def joinSep (sep : PyStr) : List PyStr → PyStr
  | [] => []
  | [x] => x
  | x :: y :: rest => x ++ sep ++ joinSep sep (y :: rest)

/-- The `out` list collected by the candidate/parts loops of
`extract_text_from_response` (src/app.py lines 101–109): every truthy
`p.text` over all candidates, `None` contents/parts treated as `[]`. -/
def response_part_texts (resp : GResponse) : List PyStr :=
  (resp.candidates.getD []).flatMap (fun c =>
    match c.content with
    | none => []
    | some content =>
        (content.parts.getD []).filterMap (fun p =>
          match p.text with
          | some pt => if pt ≠ [] then some pt else none
          | none => none))

/-- Lines 101–111 of src/app.py: when `resp.text` is falsy, join the
collected part texts with newlines and strip; `""` when nothing was
collected (and on the `except`/fall-through path, line 114). -/
def extract_from_candidates (resp : GResponse) : PyStr :=
  let out := response_part_texts resp
  if out ≠ [] then pyStrip (joinSep ['\n'] out) else []

/-- `extract_text_from_response` from src/app.py lines 96–114. -/
def extract_text_from_response (resp : GResponse) : PyStr :=
  match resp.text with
  | some t => if t ≠ [] then t else extract_from_candidates resp
  | none => extract_from_candidates resp

/-! ## `ensure_active_files` (src/app.py lines 74–88)

A remote file object carries a `name` and a `state` attribute
(`getattr(fobj, "state", "")` is modelled as the `state` field, with
`""` standing for an absent attribute).  The remote lookup
`client.files.get(name=…)` is modelled by the oracle `get`, indexed by
the poll round; `none` models the call raising (the Python code wraps
it in `try: … except Exception: pass`, keeping the old object).

Real time is abstracted into half-second ticks: the `while` condition
`time.time() < deadline` holds exactly while fewer than
`maxTicks = max_wait_s / 0.5` sleeps of `time.sleep(0.5)` have
occurred, so the remaining ticks serve as the structural fuel of the
loop.  The result pairs the final file list with the number of sleeps
performed. -/

structure GFile where
  name : PyStr
  state : PyStr
deriving DecidableEq, Repr

/-- The `"ACTIVE"` state constant (src/app.py line 81). -/
def ACTIVE : PyStr := "ACTIVE".data

/-- One pass of the `for i, meta in enumerate(files_meta)` body
(src/app.py lines 79–86): refresh every non-ACTIVE file through the
`get` oracle (keeping the old object when the call raises) and report
whether any file was still not ACTIVE (`any_processing`). -/
def refresh_files (get : PyStr → Option GFile) : List GFile → List GFile × Bool
  | [] => ([], false)
  | meta :: rest =>
      let r := refresh_files get rest
      if meta.state ≠ ACTIVE then
        ((match get meta.name with
          | some f => f
          | none => meta) :: r.1, true)
      else (meta :: r.1, r.2)

/-- The `while any_processing and time.time() < deadline` loop of
`ensure_active_files`, entered with `any_processing = True`; `fuel` is
the number of half-second ticks left before the deadline.  Returns the
final file list and the number of `time.sleep(0.5)` calls. -/
def ensure_active_files_loop (get : Nat → PyStr → Option GFile) (round : Nat)
    (files : List GFile) : Nat → List GFile × Nat
  | 0 => (files, 0)
  | fuel + 1 =>
      let r := refresh_files (get round) files
      if r.2 then
        let rec2 := ensure_active_files_loop get (round + 1) r.1 fuel
        (rec2.1, rec2.2 + 1)
      else (r.1, 0)

/-- `ensure_active_files` from src/app.py lines 74–88, with the timeout
expressed in half-second ticks (`max_wait_s / 0.5`; default
`max_wait_s = 12.0` gives 24 ticks). -/
def ensure_active_files (get : Nat → PyStr → Option GFile) (maxTicks : Nat)
    (files : List GFile) : List GFile × Nat :=
  ensure_active_files_loop get 0 files maxTicks

/-- The polling interval `time.sleep(0.5)` (src/app.py line 88), in seconds. -/
def sleep_interval_s : ℚ := 1 / 2

/-- The default `max_wait_s = 12.0` (src/app.py line 74), in seconds. -/
def default_max_wait_s : ℚ := 12

/-- The default timeout expressed in sleep ticks: `12.0 / 0.5 = 24`. -/
def default_max_ticks : Nat := 24

/-! ## The session-state machine (src/app.py lines 183–793)

Streamlit reruns the whole page script on every user interaction.  The
interactions that change state are modelled as `Event`s; each event's
handler is the corresponding block of the page script, executed against
the persistent `Session` (the `st.session_state` keys set up on lines
183–203) and an evaluation context `Ctx` holding the external oracles
(model replies, upload failures, the `re.fullmatch` pack pattern) and
the trace of remote-API actions. -/

/-- The metadata dict `{name, size, mime, file}` stored for an uploaded
file (src/app.py lines 495 and 534); the opaque remote handle is a
natural number. -/
structure FileMeta where
  name : PyStr
  size : Nat
  mime : PyStr
  file : Nat
deriving DecidableEq, Repr

/-- The `st.session_state` keys initialised on src/app.py lines
183–203.  `chat_history` entries are `(role, parts)` pairs. -/
structure Session where
  chat_history : List (PyStr × PyStr)
  last_assistant_text : PyStr
  resume_meta : Option FileMeta
  resume_text : PyStr
  jd_text_temp : PyStr
  last_jd_meta : Option FileMeta
  awaiting_next_options : Bool
  show_next_jd_panel : Bool
  last_apply_output : PyStr
  awaiting_refine_pack_selection : Bool
  awaiting_ab_bullet : Bool
  awaiting_ab_choice : Bool
  ab_variants : List (PyStr × PyStr)
  awaiting_level_choice : Bool
  custom_refine_text : PyStr
deriving DecidableEq, Repr

/-- The `setdefault` values of src/app.py lines 183–203. -/
def initSession : Session :=
  { chat_history := []
    last_assistant_text := []
    resume_meta := none
    resume_text := []
    jd_text_temp := []
    last_jd_meta := none
    awaiting_next_options := false
    show_next_jd_panel := false
    last_apply_output := []
    awaiting_refine_pack_selection := false
    awaiting_ab_bullet := false
    awaiting_ab_choice := false
    ab_variants := []
    awaiting_level_choice := false
    custom_refine_text := [] }

/-- Remote-API actions recorded in the trace: a Files-API upload from
the resume uploader, a Files-API upload from a JD uploader, an
`ensure_active_files` poll over a set of handles, and a generation
request carrying the listed file-handle attachments. -/
inductive Action where
  | uploadResumeFile (handle : Nat)
  | uploadJDFile (handle : Nat)
  | pollFiles (handles : List Nat)
  | sendReq (attached : List Nat)
deriving DecidableEq, Repr

/-- Evaluation context: the external oracles plus the API call
counters and the recorded action trace.  `reply i = none` models the
`i`-th generation call raising; `uploadFails i = true` models the
`i`-th Files-API upload raising; `fullmatch_packs` is the external
`re.fullmatch` of the pack-selection pattern on src/app.py line 656. -/
structure Ctx where
  reply : Nat → Option PyStr
  uploadFails : Nat → Bool
  fullmatch_packs : PyStr → Bool
  sendCount : Nat
  uploadCount : Nat
  nextHandle : Nat
  trace : List Action

/-- Result of running a piece of the page script: a value, or a Python
exception propagating (`exn`). -/
inductive Res (α : Type) where
  | val (a : α)
  | exn (msg : PyStr)
deriving DecidableEq, Repr

/-- The page-script monad: state over `Session × Ctx` with exceptions
that preserve the state mutations made before the raise (Streamlit's
`st.session_state` survives an uncaught exception). -/
def M (α : Type) := Session × Ctx → Res α × Session × Ctx

instance : Monad M where
  pure a := fun sc => (Res.val a, sc.1, sc.2)
  bind m f := fun sc =>
    match m sc with
    | (Res.val a, s, c) => f a (s, c)
    | (Res.exn e, s, c) => (Res.exn e, s, c)

/-- Read `st.session_state`. -/
def getS : M Session := fun sc => (Res.val sc.1, sc.1, sc.2)

/-- Mutate `st.session_state`. -/
def modifyS (f : Session → Session) : M Unit := fun sc => (Res.val (), f sc.1, sc.2)

/-- Query the external `re.fullmatch` oracle on the pack pattern. -/
def getPackMatch (txt : PyStr) : M Bool :=
  fun sc => (Res.val (sc.2.fullmatch_packs txt), sc.1, sc.2)

/-- `st.session_state.chat.send_message(parts)` wrapped by `send`
(src/app.py lines 230–232): record the request (with its file-handle
attachments) in the trace, consume one reply from the oracle, raise
when the oracle says the call fails. -/
def doSend (attached : List Nat) : M PyStr := fun sc =>
  let c := sc.2
  let c2 : Ctx := { c with
    sendCount := c.sendCount + 1
    trace := c.trace ++ [Action.sendReq attached] }
  match c.reply c.sendCount with
  | some r => (Res.val r, sc.1, c2)
  | none => (Res.exn "generation call failed".data, sc.1, c2)

/-- `client.files.upload(…)` (src/app.py lines 494, 533, 570): raise
when the oracle says so, otherwise return a fresh remote handle and
record the upload (tagged by the uploader it came from). -/
def doUpload (fromResumeUploader : Bool) : M Nat := fun sc =>
  let c := sc.2
  if c.uploadFails c.uploadCount then
    (Res.exn "upload failed".data, sc.1, { c with uploadCount := c.uploadCount + 1 })
  else
    let h := c.nextHandle
    let act := if fromResumeUploader then Action.uploadResumeFile h else Action.uploadJDFile h
    (Res.val h, sc.1,
      { c with
        uploadCount := c.uploadCount + 1
        nextHandle := h + 1
        trace := c.trace ++ [act] })

/-- A completed `ensure_active_files(client, metas)` call over the
handles of `metas` (src/app.py lines 535, 572): it polls until ACTIVE
or timeout, never raises (its internals catch everything), and leaves
the handles unchanged; only the poll is recorded. -/
def doPoll (handles : List Nat) : M Unit :=
  fun sc => (Res.val (), sc.1, { sc.2 with trace := sc.2.trace ++ [Action.pollFiles handles] })

/-- A `try: … except Exception as e: st.error(…)` block: the error is
converted to an inline message, with the state mutations made before
the raise kept. -/
def tryShow (body : M Unit) : M Unit := fun sc =>
  match body sc with
  | (Res.val a, s, c) => (Res.val a, s, c)
  | (Res.exn _, s, c) => (Res.val (), s, c)

/-- Request parts (`types.Part.from_text` texts and file handles). -/
inductive RPart where
  | text (t : PyStr)
  | file (handle : Nat)
deriving DecidableEq, Repr

/-- The part list built identically by every prompt builder of
src/app.py (`autotailor_resume_only` lines 245–253, and likewise
`poststep_scores_and_proofs`, `suggest_three_packs`,
`apply_selected_packs`, `post_after_apply`, `minor_boosters`,
`coverage_board`, `narrative_presets`, `ab_bullet_variants`,
`apply_ab_choice`, `level_calibrator_prompt`): the command text,
then the pasted resume text if truthy, then the resume file handle if
on file, then the stripped JD text if truthy, then the JD file handle
if present.  The command string `cmd` is a prompt template (excluded
domain content), passed as a parameter. -/
def standard_parts (cmd : PyStr) (s : Session) (jd_meta : Option FileMeta)
    (jd_text : PyStr) : List RPart :=
  [RPart.text cmd]
  ++ (if s.resume_text ≠ [] then [RPart.text ("[RESUME TEXT]\n".data ++ s.resume_text)] else [])
  ++ (match s.resume_meta with
      | some m => [RPart.file m.file]
      | none => [])
  ++ (if pyStrip jd_text ≠ [] then [RPart.text ("[JD TEXT]\n".data ++ pyStrip jd_text)] else [])
  ++ (match jd_meta with
      | some m => [RPart.file m.file]
      | none => [])

/-- The file handles carried by a part list. -/
def part_attachments (ps : List RPart) : List Nat :=
  ps.filterMap (fun p =>
    match p with
    | RPart.file h => some h
    | RPart.text _ => none)

/-- The file-handle attachments every prompt builder produces: the
resume handle when a resume file is on file, and the JD handle when a
JD file is in play. -/
def standard_attachments (s : Session) (jd_meta : Option FileMeta) : List Nat :=
  (match s.resume_meta with
   | some m => [m.file]
   | none => [])
  ++ (match jd_meta with
      | some m => [m.file]
      | none => [])

/-- The files held in the session (`resume_meta` and `last_jd_meta`,
each a single-file uploader). -/
def held_attachments (s : Session) : Nat :=
  (match s.resume_meta with
   | some _ => 1
   | none => 0)
  + (match s.last_jd_meta with
     | some _ => 1
     | none => 0)

/-- The auto-continue loop of `run_autotailor_flow` (src/app.py lines
450–466; the identical loop of the pack-selection handler, lines
662–678): while the combined text does not end with `[END_RESUME]` and
fewer than 3 attempts were made, send a continuation request and glue
the reply on (`(combined.rstrip() + "\n" + cont.lstrip()).strip()`),
stopping early on a blank reply.  `fuel` is `3 - attempts`. -/
def auto_continue (jd_meta : Option FileMeta) : Nat → PyStr → M PyStr
  | 0, combined => pure combined
  | fuel + 1, combined =>
      if ends_with_end_resume combined then pure combined
      else do
        let s ← getS
        let cont ← doSend (standard_attachments s jd_meta)
        if pyStrip cont ≠ [] then
          auto_continue jd_meta fuel (pyStrip (rstrip combined ++ '\n' :: lstrip cont))
        else pure combined

/-- `run_autotailor_flow` from src/app.py lines 441–479: the
AutoTailor request, the auto-continue loop, `trim_after_end_resume`,
the PostStep scoring request, then the state updates of lines 476–479
(store `last_apply_output`, raise the two stage flags, append the
assistant turn to `chat_history`). -/
def run_autotailor_flow (jd_meta : Option FileMeta) (_jd_text : PyStr) : M Unit := do
  let s ← getS
  let resume_part ← doSend (standard_attachments s jd_meta)
  let combined ← auto_continue jd_meta 3 resume_part
  let combined2 := trim_after_end_resume combined
  let s2 ← getS
  let rest ← doSend (standard_attachments s2 jd_meta)
  let output := pyStrip (rstrip combined2 ++ "\n\n".data ++ lstrip rest)
  modifyS (fun s3 => { s3 with
    last_apply_output := output
    awaiting_next_options := true
    show_next_jd_panel := true
    chat_history := s3.chat_history ++ [("assistant".data, output)] })
  pure ()

/-- Whether the resume-input panel is replaced by the "Resume on file"
panel: the guard `st.session_state["resume_meta"] or
st.session_state["resume_text"].strip()` of src/app.py lines 486/521. -/
def resume_on_file (s : Session) : Bool :=
  s.resume_meta.isSome || pyStrip s.resume_text ≠ []

/-- The resume paste `st.text_area` write-back of src/app.py line 500
(only rendered while no resume is on file); the "Use Pasted Resume"
button itself only toasts/warns and changes no state. -/
def handle_set_resume_text (txt : PyStr) : M Unit := do
  let s ← getS
  if resume_on_file s then pure ()
  else modifyS (fun s2 => { s2 with resume_text := txt })

/-- The resume `st.file_uploader` handler, src/app.py lines 490–498:
upload the bytes to the Files API inside a `try`, store the metadata in
`resume_meta`.  No `ensure_active_files` call is made here. -/
def handle_upload_resume (name : PyStr) (size : Nat) (mime : PyStr) : M Unit := do
  let s ← getS
  if resume_on_file s then pure ()
  else
    tryShow (do
      let h ← doUpload true
      modifyS (fun s2 => { s2 with resume_meta := some ⟨name, size, mime, h⟩ }))

/-- The "Replace Resume" button handler, src/app.py lines 511–517:
clear the resume fields, drop `awaiting_next_options`,
`show_next_jd_panel` and `last_apply_output`, then `st.rerun()`. -/
def handle_replace_resume : M Unit := do
  let s ← getS
  if resume_on_file s then
    modifyS (fun s2 => { s2 with
      resume_meta := none
      resume_text := []
      awaiting_next_options := false
      show_next_jd_panel := false
      last_apply_output := [] })
  else pure ()

/-- The JD `st.file_uploader` handler, src/app.py lines 530–540 (only
rendered once a resume is on file): inside a `try`, upload the JD,
`ensure_active_files` on it, store `last_jd_meta`, run the AutoTailor
flow. -/
def handle_upload_jd (name : PyStr) (size : Nat) (mime : PyStr) : M Unit := do
  let s ← getS
  if resume_on_file s then
    tryShow (do
      let h ← doUpload false
      let jdm : FileMeta := ⟨name, size, mime, h⟩
      doPoll [h]
      modifyS (fun s2 => { s2 with last_jd_meta := some jdm })
      run_autotailor_flow (some jdm) [])
  else pure ()

/-- The "Use This JD" paste handler, src/app.py lines 527 and 542–544:
the text area writes `jd_text_temp`; on click with non-blank text,
clear `last_jd_meta` and run the AutoTailor flow.  This path is NOT
wrapped in any `try`. -/
def handle_paste_jd (txt : PyStr) : M Unit := do
  let s ← getS
  if resume_on_file s then do
    modifyS (fun s2 => { s2 with jd_text_temp := txt })
    if pyStrip txt ≠ [] then do
      modifyS (fun s2 => { s2 with last_jd_meta := none })
      run_autotailor_flow none txt
    else pure ()
  else pure ()

/-- Whether the bottom "Add Next JD" panel is rendered (src/app.py
line 557). -/
def next_jd_panel_shown (s : Session) : Bool :=
  s.awaiting_next_options || s.show_next_jd_panel

/-- The "Upload next JD" handler, src/app.py lines 567–578: like the
JD uploader (inside a `try`), additionally blanking `jd_text_temp`. -/
def handle_upload_next_jd (name : PyStr) (size : Nat) (mime : PyStr) : M Unit := do
  let s ← getS
  if next_jd_panel_shown s then
    tryShow (do
      let h ← doUpload false
      let jdm : FileMeta := ⟨name, size, mime, h⟩
      doPoll [h]
      modifyS (fun s2 => { s2 with last_jd_meta := some jdm, jd_text_temp := [] })
      run_autotailor_flow (some jdm) [])
  else pure ()

/-- The "Use This Next JD" paste handler, src/app.py lines 580–583:
store the pasted text, clear `last_jd_meta`, run the flow.  Not
wrapped in any `try`. -/
def handle_paste_next_jd (txt : PyStr) : M Unit := do
  let s ← getS
  if next_jd_panel_shown s then
    if pyStrip txt ≠ [] then do
      modifyS (fun s2 => { s2 with last_jd_meta := none, jd_text_temp := txt })
      run_autotailor_flow none txt
    else pure ()
  else pure ()

/-- The option dispatch of src/app.py lines 692–780, the body of the
`try` on line 694, with `opt = user_prompt.strip().lower()`.  Branches
[5], [6], [7] and [0] make no generation call; the final `else` sends
the raw prompt with the session's resume/JD attachments. -/
def dispatch_option (opt : PyStr) : M Unit := do
  let s ← getS
  if opt = "1".data ∨ opt = "improve".data ∨ opt = "packs".data then do
    let _ ← doSend (standard_attachments s s.last_jd_meta)
    modifyS (fun s2 => { s2 with
      awaiting_refine_pack_selection := true
      awaiting_next_options := false })
  else if opt = "2".data ∨ opt = "booster".data ∨ opt = "boosters".data then do
    modifyS (fun s2 => { s2 with custom_refine_text := s2.custom_refine_text })
    let s2 ← getS
    let _ ← doSend (standard_attachments s2 s2.last_jd_meta)
    modifyS (fun s3 => { s3 with
      awaiting_next_options := true
      show_next_jd_panel := true })
  else if opt = "3".data ∨ opt = "coverage".data ∨ opt = "board".data then do
    let _ ← doSend (standard_attachments s s.last_jd_meta)
    modifyS (fun s2 => { s2 with
      awaiting_next_options := true
      show_next_jd_panel := true })
  else if opt = "4".data ∨ opt = "narrative".data ∨ opt = "presets".data then do
    let _ ← doSend (standard_attachments s s.last_jd_meta)
    modifyS (fun s2 => { s2 with
      awaiting_next_options := true
      show_next_jd_panel := true })
  else if opt = "5".data ∨ opt = "ab".data ∨ opt = "a/b".data ∨ opt = "bullet".data then
    modifyS (fun s2 => { s2 with
      awaiting_ab_bullet := true
      awaiting_next_options := false })
  else if opt = "6".data ∨ opt = "level".data ∨ opt = "calibrator".data then
    modifyS (fun s2 => { s2 with
      awaiting_level_choice := true
      awaiting_next_options := false })
  else if opt = "7".data ∨ opt = "export".data ∨ opt = "txt".data ∨ opt = "download".data then
    modifyS (fun s2 => { s2 with
      awaiting_next_options := true
      show_next_jd_panel := true })
  else if opt = "0".data ∨ opt = "next".data ∨ opt = "next jd".data then
    modifyS (fun s2 => { s2 with
      jd_text_temp := []
      last_jd_meta := none
      awaiting_next_options := true
      show_next_jd_panel := true })
  else do
    let _ ← doSend (standard_attachments s s.last_jd_meta)
    modifyS (fun s2 => { s2 with awaiting_next_options := true })

/-- The `need_resume` check of src/app.py line 599 (note: unlike the
panel guard on line 486, no `strip()` is applied here). -/
def need_resume (s : Session) : Bool :=
  !(s.resume_meta.isSome || s.resume_text ≠ [])

/-- The `st.chat_input` handler, src/app.py lines 594–783: append the
user turn, require a resume, then work through the sub-step waits
(`awaiting_ab_bullet`, `awaiting_ab_choice`, `awaiting_level_choice`),
the pack-selection branch (guarded by `re.fullmatch` of the digit-list
pattern), and finally the `try`-wrapped option dispatch.  Each guard
block ends in `st.stop()`, so the branches are mutually exclusive.
Only the final dispatch sits inside a `try`. -/
def handle_chat_prompt (txt : PyStr) : M Unit := do
  modifyS (fun s => { s with chat_history := s.chat_history ++ [("user".data, txt)] })
  let s ← getS
  if need_resume s then pure ()
  else if s.awaiting_ab_bullet then do
    let _ ← doSend (standard_attachments s s.last_jd_meta)
    modifyS (fun s2 => { s2 with
      awaiting_ab_bullet := false
      awaiting_ab_choice := true })
  else if s.awaiting_ab_choice then do
    let choice := pyUpper (pyStrip txt)
    if choice = "A".data ∨ choice = "B".data ∨ choice = "C".data then do
      let updated ← doSend (standard_attachments s s.last_jd_meta)
      let s2 ← getS
      let post ← doSend (standard_attachments s2 s2.last_jd_meta)
      modifyS (fun s3 => { s3 with
        last_apply_output := pyStrip (rstrip updated ++ "\n\n".data ++ lstrip post)
        awaiting_ab_choice := false
        awaiting_next_options := true
        show_next_jd_panel := true })
    else pure ()
  else if s.awaiting_level_choice then do
    let level := pyLower (pyStrip txt)
    if level = "junior".data ∨ level = "mid".data ∨ level = "senior".data then do
      let updated ← doSend (standard_attachments s s.last_jd_meta)
      let s2 ← getS
      let post ← doSend (standard_attachments s2 s2.last_jd_meta)
      modifyS (fun s3 => { s3 with
        last_apply_output := pyStrip (rstrip updated ++ "\n\n".data ++ lstrip post)
        awaiting_level_choice := false
        awaiting_next_options := true
        show_next_jd_panel := true })
    else pure ()
  else do
    let pm ← getPackMatch txt
    if s.awaiting_refine_pack_selection && pm then do
      let resume_only ← doSend (standard_attachments s s.last_jd_meta)
      let combined ← auto_continue s.last_jd_meta 3 resume_only
      let combined2 := trim_after_end_resume combined
      let s2 ← getS
      let rest ← doSend (standard_attachments s2 s2.last_jd_meta)
      modifyS (fun s3 => { s3 with
        last_apply_output := pyStrip (rstrip combined2 ++ "\n\n".data ++ lstrip rest)
        awaiting_refine_pack_selection := false
        awaiting_next_options := true
        show_next_jd_panel := true })
    else
      tryShow (dispatch_option (pyLower (pyStrip txt)))

/-- The user interactions that run handler code. -/
inductive Event where
  | setResumeText (txt : PyStr)
  | uploadResume (name : PyStr) (size : Nat) (mime : PyStr)
  | replaceResume
  | uploadJD (name : PyStr) (size : Nat) (mime : PyStr)
  | pasteJD (txt : PyStr)
  | uploadNextJD (name : PyStr) (size : Nat) (mime : PyStr)
  | pasteNextJD (txt : PyStr)
  | chatPrompt (txt : PyStr)
deriving DecidableEq, Repr

/-- Dispatch an event to its handler. -/
def handle_event : Event → M Unit
  | Event.setResumeText txt => handle_set_resume_text txt
  | Event.uploadResume n sz m => handle_upload_resume n sz m
  | Event.replaceResume => handle_replace_resume
  | Event.uploadJD n sz m => handle_upload_jd n sz m
  | Event.pasteJD t => handle_paste_jd t
  | Event.uploadNextJD n sz m => handle_upload_next_jd n sz m
  | Event.pasteNextJD t => handle_paste_next_jd t
  | Event.chatPrompt t => handle_chat_prompt t

/-- Run one page rerun for an event. -/
def run_event (s : Session) (c : Ctx) (e : Event) : Res Unit × Session × Ctx :=
  handle_event e (s, c)

/-- Run a sequence of page reruns; an uncaught exception ends that
rerun, but the session (and the Files-API side effects) persist into
the next one. -/
def run_events : Session → Ctx → List Event → Session × Ctx
  | s, c, [] => (s, c)
  | s, c, e :: rest =>
      let r := run_event s c e
      run_events r.2.1 r.2.2 rest

/-- A fresh evaluation context for the given oracles. -/
def initCtx (reply : Nat → Option PyStr) (uploadFails : Nat → Bool)
    (fm : PyStr → Bool) : Ctx :=
  { reply := reply
    uploadFails := uploadFails
    fullmatch_packs := fm
    sendCount := 0
    uploadCount := 0
    nextHandle := 0
    trace := [] }

/-! ## Trace checkers for the upload/poll/attach discipline -/

/-- The claim C1 discipline, as stated: scanning the trace left to
right while accumulating the set of handles that have completed an
`ensure_active_files` poll, every attachment of a handle to a
generation request must already be polled. -/
def attachesPolledOnly (polled : List Nat) : List Action → Bool
  | [] => true
  | Action.pollFiles hs :: rest => attachesPolledOnly (polled ++ hs) rest
  | Action.sendReq atts :: rest =>
      atts.all (fun h => polled.contains h) && attachesPolledOnly polled rest
  | _ :: rest => attachesPolledOnly polled rest

/-- The amended discipline: every handle attached to a generation
request has either completed a poll, or entered the session through
the resume uploader (whose handle the code attaches without ever
polling it). -/
def attachesPolledOrResume (res polled : List Nat) : List Action → Bool
  | [] => true
  | Action.uploadResumeFile h :: rest => attachesPolledOrResume (res ++ [h]) polled rest
  | Action.uploadJDFile _ :: rest => attachesPolledOrResume res polled rest
  | Action.pollFiles hs :: rest => attachesPolledOrResume res (polled ++ hs) rest
  | Action.sendReq atts :: rest =>
      atts.all (fun h => polled.contains h || res.contains h) &&
        attachesPolledOrResume res polled rest

/-- Handles uploaded through the resume uploader in a trace,
accumulated onto `res`. -/
def resume_after (res : List Nat) : List Action → List Nat
  | [] => res
  | Action.uploadResumeFile h :: rest => resume_after (res ++ [h]) rest
  | _ :: rest => resume_after res rest

/-- Handles that completed a poll in a trace, accumulated onto
`polled`. -/
def polled_after (polled : List Nat) : List Action → List Nat
  | [] => polled
  | Action.pollFiles hs :: rest => polled_after (polled ++ hs) rest
  | _ :: rest => polled_after polled rest

/-! ## Properties of `find_sub` and `trim_after_end_resume` -/

/-- When `find_sub` reports no occurrence, the pattern is a prefix of
no suffix of the haystack. -/
theorem find_sub_none (pat : PyStr) (s : PyStr) (h : find_sub pat s = none) :
    ∀ j, pat.isPrefixOf (s.drop j) = false := by
  induction s with
  | nil =>
    intro j
    simp only [find_sub] at h
    rcases hp : pat.isPrefixOf ([] : PyStr) with _ | _
    · simpa [List.drop_nil] using hp
    · rw [hp] at h; simp at h
  | cons c rest ih =>
    simp only [find_sub] at h
    rcases hp : pat.isPrefixOf (c :: rest) with _ | _
    · rw [hp] at h
      simp only [if_false, Bool.false_eq_true, Option.map_eq_none'] at h
      intro j
      cases j with
      | zero => simpa using hp
      | succ j => simpa using ih h j
    · rw [hp] at h; simp at h

/-- When `find_sub` reports index `i`, the pattern occurs at `i` and at
no earlier index. -/
theorem find_sub_some (pat : PyStr) (s : PyStr) (i : Nat) (h : find_sub pat s = some i) :
    pat.isPrefixOf (s.drop i) = true ∧ ∀ j, j < i → pat.isPrefixOf (s.drop j) = false := by
  induction s generalizing i with
  | nil =>
    simp only [find_sub] at h
    rcases hp : pat.isPrefixOf ([] : PyStr) with _ | _
    · rw [hp] at h; simp at h
    · rw [hp] at h
      simp only [if_true, Option.some.injEq] at h
      subst h
      exact ⟨by simpa using hp, by omega⟩
  | cons c rest ih =>
    simp only [find_sub] at h
    rcases hp : pat.isPrefixOf (c :: rest) with _ | _
    · rw [hp] at h
      simp only [if_false, Bool.false_eq_true, Option.map_eq_some'] at h
      obtain ⟨i0, hi0, rfl⟩ := h
      obtain ⟨h1, h2⟩ := ih i0 hi0
      refine ⟨by simpa using h1, ?_⟩
      intro j hj
      cases j with
      | zero => simpa using hp
      | succ j => simpa using h2 j (by omega)
    · rw [hp] at h
      simp only [if_true, Option.some.injEq] at h
      subst h
      exact ⟨by simpa using hp, by omega⟩

/-- `find_sub` returns exactly the first occurrence. -/
theorem find_sub_eq_some_of_first (pat : PyStr) (s : PyStr) (i : Nat)
    (h1 : pat.isPrefixOf (s.drop i) = true)
    (h2 : ∀ j, j < i → pat.isPrefixOf (s.drop j) = false) :
    find_sub pat s = some i := by
  cases hf : find_sub pat s with
  | none => rw [find_sub_none pat s hf i] at h1; exact absurd h1 (by simp)
  | some i2 =>
    obtain ⟨g1, g2⟩ := find_sub_some pat s i2 hf
    rcases Nat.lt_trichotomy i i2 with hlt | heq | hgt
    · rw [g2 i hlt] at h1; exact absurd h1 (by simp)
    · rw [heq]
    · rw [h2 i2 hgt] at g1; exact absurd g1 (by simp)

/-- A pattern that occurs at no index below the haystack's length
occurs at no index at all (for a nonempty pattern). -/
theorem no_occur_of_no_occur_lt (pat : PyStr) (s : PyStr) (hp : pat ≠ [])
    (h : ∀ j, j < s.length → pat.isPrefixOf (s.drop j) = false) :
    ∀ j, pat.isPrefixOf (s.drop j) = false := by
  intro j
  by_cases hj : j < s.length
  · exact h j hj
  · have hdrop : s.drop j = [] := List.drop_eq_nil_of_le (by omega)
    rw [hdrop]
    cases pat with
    | nil => exact absurd rfl hp
    | cons a l => rfl

/-- The default identity text is nonempty. -/
theorem load_default_identity_ne_nil : load_default_identity ≠ [] := by decide

/-- C8: for every string `t`, `trim_after_end_resume t` is a prefix of
`t`; when the marker `[END_RESUME]` does not occur in `t` the result is
`t` unchanged; and when the marker first occurs at index `i` the result
is exactly the prefix of `t` ending at the end of that first
occurrence. -/
theorem C8_trim_prefix_and_first_occurrence (t : PyStr) :
    trim_after_end_resume t <+: t
    ∧ ((∀ j, END_RESUME.isPrefixOf (t.drop j) = false) → trim_after_end_resume t = t)
    ∧ (∀ i, END_RESUME.isPrefixOf (t.drop i) = true →
        (∀ j, j < i → END_RESUME.isPrefixOf (t.drop j) = false) →
        trim_after_end_resume t = t.take (i + END_RESUME.length)) := by
  refine ⟨?_, ?_, ?_⟩
  · unfold trim_after_end_resume
    cases hf : find_sub END_RESUME t with
    | none => exact List.prefix_refl t
    | some i => exact List.take_prefix _ t
  · intro hnone
    have hf : find_sub END_RESUME t = none := by
      cases hf : find_sub END_RESUME t with
      | none => rfl
      | some i =>
        have := (find_sub_some END_RESUME t i hf).1
        rw [hnone i] at this
        exact absurd this (by simp)
    unfold trim_after_end_resume
    rw [hf]
  · intro i h1 h2
    have hf : find_sub END_RESUME t = some i :=
      find_sub_eq_some_of_first END_RESUME t i h1 h2
    unfold trim_after_end_resume
    rw [hf]

/-- Witness for C8 at concrete inputs: a string without the marker is
returned unchanged, and a string with the marker at index 3 is cut
right after the marker. -/
theorem C8_trim_prefix_and_first_occurrence_witness :
    trim_after_end_resume "no marker here".data = "no marker here".data
    ∧ trim_after_end_resume "abc[END_RESUME]xyz".data
        = ("abc[END_RESUME]xyz".data).take (3 + END_RESUME.length) := by
  constructor
  · exact (C8_trim_prefix_and_first_occurrence _).2.1
      (no_occur_of_no_occur_lt _ _ (by decide) (by decide))
  · exact (C8_trim_prefix_and_first_occurrence _).2.2 3 (by decide) (by decide)

/-- C9: `parse_xmlish_instr` never returns the empty string, and when
the regex search finds none of the recognized tag sections it returns
the default identity text. -/
theorem C9_parse_xmlish_instr_nonempty (search : PyStr → PyStr → Option PyStr)
    (txt : PyStr) :
    parse_xmlish_instr search txt ≠ []
    ∧ ((∀ tag ∈ xml_sections, search tag txt = none) →
        parse_xmlish_instr search txt = load_default_identity) := by
  constructor
  · unfold parse_xmlish_instr
    simp only []
    split
    · exact load_default_identity_ne_nil
    · assumption
  · intro hnone
    unfold parse_xmlish_instr
    have hchunks : xml_sections.filterMap (fun tag =>
        (search tag txt).map (fun g => tag ++ ":\n".data ++ pyStrip g ++ "\n\n".data)) = [] := by
      rw [List.filterMap_eq_nil_iff]
      intro tag htag
      rw [hnone tag htag]
      rfl
    rw [hchunks]
    rfl

/-- Witness for C9: with a search oracle finding no sections, the
default identity comes back, and it is nonempty. -/
theorem C9_parse_xmlish_instr_nonempty_witness :
    parse_xmlish_instr (fun _ _ => none) [] = load_default_identity
    ∧ parse_xmlish_instr (fun _ _ => none) [] ≠ [] :=
  ⟨(C9_parse_xmlish_instr_nonempty _ _).2 (fun _ _ => rfl),
   (C9_parse_xmlish_instr_nonempty _ _).1⟩

/-- Modelled from the spec's words for claim C5: the documented default
for unparseable model JSON, "a zeroed score dictionary / empty list or
object" — i.e. an empty JSON object or an empty JSON array. -/
def documented_json_defaults : List PyStr := ["\x7b\x7d".data, "[]".data]

/-- A response carrying no text at all (`text` absent, `candidates`
an empty list), the shape of a malformed/unparseable model reply. -/
def empty_response : GResponse := ⟨none, some []⟩

/-- C5 counterexample: on a reply from which nothing can be parsed,
the program's text extractor yields the empty string, not any of the
documented JSON default values; no zeroed score dictionary exists
anywhere in the program. -/
theorem C5_counterexample_empty_string_not_default :
    extract_text_from_response empty_response = []
    ∧ extract_text_from_response empty_response ∉ documented_json_defaults := by
  constructor
  · rfl
  · decide

/-- C5 amended: when the model's output cannot be parsed into any text
(no truthy `text` attribute and no truthy candidate part), the program
yields the empty string — failing open rather than raising. -/
theorem C5_extract_text_fails_open (resp : GResponse)
    (h1 : resp.text = none ∨ resp.text = some [])
    (h2 : response_part_texts resp = []) :
    extract_text_from_response resp = [] := by
  have hc : extract_from_candidates resp = [] := by
    unfold extract_from_candidates
    rw [h2]
    rfl
  unfold extract_text_from_response
  rcases h1 with h | h <;> rw [h] <;> simp [hc]

/-- Witness for C5's amended theorem at the concrete empty response. -/
theorem C5_extract_text_fails_open_witness :
    extract_text_from_response empty_response = [] :=
  C5_extract_text_fails_open empty_response (Or.inl rfl) rfl

/-! ## C6: termination and bounds of `ensure_active_files` -/

/-- The loop sleeps at most `fuel` times. -/
theorem ensure_active_files_loop_sleeps_le (get : Nat → PyStr → Option GFile)
    (round : Nat) (files : List GFile) (fuel : Nat) :
    (ensure_active_files_loop get round files fuel).2 ≤ fuel := by
  induction fuel generalizing round files with
  | zero => simp [ensure_active_files_loop]
  | succ f ih =>
    unfold ensure_active_files_loop
    dsimp only
    split
    · dsimp only
      have := ih (round + 1) (refresh_files (get round) files).1
      omega
    · simp

/-- Refreshing a list of files that are all ACTIVE changes nothing and
reports no file processing. -/
theorem refresh_files_all_active (get : PyStr → Option GFile) (files : List GFile)
    (h : ∀ f ∈ files, f.state = ACTIVE) :
    refresh_files get files = (files, false) := by
  induction files with
  | nil => rfl
  | cons a rest ih =>
    have ha : a.state = ACTIVE := h a (by simp)
    have hrest := ih (fun f hf => h f (by simp [hf]))
    unfold refresh_files
    rw [hrest]
    simp [ha]

/-- C6: the `ensure_active_files` poll loop, at the default 12.0-second
timeout with its 0.5-second sleeps (24 ticks), always terminates within
the timeout: it sleeps at most 24 times (≤ 12 seconds of waiting); it
performs no sleep at all when every tracked file already reports state
ACTIVE (returning the files unchanged); and whenever a refresh pass
finds no file still processing the loop stops immediately with no
further sleep.  The tick bound corresponds to the documented constants:
24 · 0.5 s = 12.0 s. -/
theorem C6_ensure_active_files_terminates (get : Nat → PyStr → Option GFile)
    (files : List GFile) :
    (ensure_active_files get default_max_ticks files).2 ≤ default_max_ticks
    ∧ ((ensure_active_files get default_max_ticks files).2 : ℚ) * sleep_interval_s
        ≤ default_max_wait_s
    ∧ ((∀ f ∈ files, f.state = ACTIVE) →
        ensure_active_files get default_max_ticks files = (files, 0))
    ∧ (∀ round fuel fs, (refresh_files (get round) fs).2 = false →
        ensure_active_files_loop get round fs (fuel + 1)
          = ((refresh_files (get round) fs).1, 0))
    ∧ (default_max_ticks : ℚ) * sleep_interval_s = default_max_wait_s := by
  have hle : (ensure_active_files get default_max_ticks files).2 ≤ default_max_ticks :=
    ensure_active_files_loop_sleeps_le get 0 files default_max_ticks
  refine ⟨hle, ?_, ?_, ?_, ?_⟩
  · have : ((ensure_active_files get default_max_ticks files).2 : ℚ) ≤ 24 := by
      exact_mod_cast hle
    unfold sleep_interval_s default_max_wait_s
    linarith
  · intro h
    unfold ensure_active_files
    show ensure_active_files_loop get 0 files (23 + 1) = (files, 0)
    unfold ensure_active_files_loop
    rw [refresh_files_all_active (get 0) files h]
    simp
  · intro round fuel fs hstop
    unfold ensure_active_files_loop
    dsimp only
    simp [hstop]
  · unfold default_max_ticks sleep_interval_s default_max_wait_s
    norm_num

/-- Witness for C6 at a concrete oracle and file list: a single file
already ACTIVE comes back unchanged with zero sleeps. -/
theorem C6_ensure_active_files_terminates_witness :
    ensure_active_files (fun _ _ => none) default_max_ticks [⟨"files/x".data, ACTIVE⟩]
      = ([⟨"files/x".data, ACTIVE⟩], 0) :=
  (C6_ensure_active_files_terminates _ _).2.2.1 (by decide)

/-! ## Stepping equations for the page-script monad -/

theorem getS_bind {β : Type} (f : Session → M β) (s : Session) (c : Ctx) :
    (getS >>= f) (s, c) = f s (s, c) := rfl

theorem modifyS_run (f : Session → Session) (s : Session) (c : Ctx) :
    modifyS f (s, c) = (Res.val (), f s, c) := rfl

theorem modifyS_bind {β : Type} (g : Session → Session) (f : Unit → M β)
    (s : Session) (c : Ctx) :
    (modifyS g >>= f) (s, c) = f () (g s, c) := rfl

theorem pure_run {α : Type} (a : α) (s : Session) (c : Ctx) :
    (pure a : M α) (s, c) = (Res.val a, s, c) := rfl

theorem packMatch_bind {β : Type} (txt : PyStr) (f : Bool → M β)
    (s : Session) (c : Ctx) :
    (getPackMatch txt >>= f) (s, c) = f (c.fullmatch_packs txt) (s, c) := rfl

theorem doPoll_bind {β : Type} (hs : List Nat) (f : Unit → M β) (s : Session) (c : Ctx) :
    (doPoll hs >>= f) (s, c)
      = f () (s, { c with trace := c.trace ++ [Action.pollFiles hs] }) := rfl

/-- The context after a generation request has been issued. -/
def sendCtx (atts : List Nat) (c : Ctx) : Ctx :=
  { c with
    sendCount := c.sendCount + 1
    trace := c.trace ++ [Action.sendReq atts] }

/-- The context after a successful Files-API upload. -/
def uploadOkCtx (tag : Bool) (c : Ctx) : Ctx :=
  { c with
    uploadCount := c.uploadCount + 1
    nextHandle := c.nextHandle + 1
    trace := c.trace ++
      [if tag then Action.uploadResumeFile c.nextHandle
       else Action.uploadJDFile c.nextHandle] }

theorem doSend_run (atts : List Nat) (s : Session) (c : Ctx) :
    doSend atts (s, c)
      = (match c.reply c.sendCount with
         | some r => Res.val r
         | none => Res.exn "generation call failed".data,
         s, sendCtx atts c) := by
  unfold doSend sendCtx
  dsimp only
  cases c.reply c.sendCount <;> rfl

theorem M_bind_run {α β : Type} (m : M α) (f : α → M β) (sc : Session × Ctx) :
    (m >>= f) sc
      = (match m sc with
         | (Res.val a, s, c) => f a (s, c)
         | (Res.exn e, s, c) => (Res.exn e, s, c)) := rfl

theorem doSend_bind {β : Type} (atts : List Nat) (f : PyStr → M β) (s : Session) (c : Ctx) :
    (doSend atts >>= f) (s, c)
      = (match c.reply c.sendCount with
         | some r => f r (s, sendCtx atts c)
         | none => (Res.exn "generation call failed".data, s, sendCtx atts c)) := by
  rw [M_bind_run, doSend_run]
  cases c.reply c.sendCount <;> rfl

theorem doUpload_run (tag : Bool) (s : Session) (c : Ctx) :
    doUpload tag (s, c)
      = if c.uploadFails c.uploadCount then
          (Res.exn "upload failed".data, s, { c with uploadCount := c.uploadCount + 1 })
        else (Res.val c.nextHandle, s, uploadOkCtx tag c) := by
  unfold doUpload uploadOkCtx
  dsimp only

theorem tryShow_run (body : M Unit) (s : Session) (c : Ctx) :
    tryShow body (s, c)
      = (match body (s, c) with
         | (Res.val a, s', c') => (Res.val a, s', c')
         | (Res.exn _, s', c') => (Res.val (), s', c')) := rfl

/-! ## C3: the attachment cap -/

/-- C3: every generation request built by the prompt builders carries
at most 5 parts in total, of which at most 2 are file attachments (the
resume handle and the JD handle); and the session never holds more
than 2 uploaded file handles (`resume_meta` and `last_jd_meta`, both
single-file uploaders).  In particular no upload sequence ever yields
more than 5 attachments held or sent in one request. -/
theorem C3_attachment_cap (cmd : PyStr) (s : Session) (jd_meta : Option FileMeta)
    (jd_text : PyStr) :
    (standard_parts cmd s jd_meta jd_text).length ≤ 5
    ∧ (part_attachments (standard_parts cmd s jd_meta jd_text)).length ≤ 2
    ∧ held_attachments s ≤ 2
    ∧ (part_attachments (standard_parts cmd s jd_meta jd_text)).length ≤ 5
    ∧ held_attachments s ≤ 5 := by
  have h1 : (standard_parts cmd s jd_meta jd_text).length ≤ 5 := by
    unfold standard_parts
    rcases jd_meta with _ | m <;> rcases s.resume_meta with _ | rm <;>
      split_ifs <;> simp
  have h2 : (part_attachments (standard_parts cmd s jd_meta jd_text)).length ≤ 2 := by
    unfold standard_parts part_attachments
    rcases jd_meta with _ | m <;> rcases s.resume_meta with _ | rm <;>
      split_ifs <;> simp
  have h3 : held_attachments s ≤ 2 := by
    unfold held_attachments
    rcases s.resume_meta with _ | rm <;> rcases s.last_jd_meta with _ | lj <;> simp
  exact ⟨h1, h2, h3, le_trans h2 (by omega), le_trans h3 (by omega)⟩

/-! ## C2: the Replace Resume action -/

/-- A session mid-conversation: nonempty transcript, resume on file,
stage flags raised. -/
def C2_session : Session :=
  { initSession with
    chat_history := [("user".data, "hello".data)]
    resume_meta := some ⟨"resume.pdf".data, 10, "application/pdf".data, 0⟩
    awaiting_next_options := true
    show_next_jd_panel := true }

/-- C2 counterexample: clicking Replace Resume on a session with a
nonempty transcript leaves `chat_history` exactly as it was — the
handler (src/app.py lines 511–517) never touches it, so the claim that
clearing the session empties the transcript is false. -/
theorem C2_counterexample_history_not_cleared :
    ((run_event C2_session (initCtx (fun _ => none) (fun _ => false) (fun _ => false))
        Event.replaceResume).2.1).chat_history = [("user".data, "hello".data)]
    ∧ ((run_event C2_session (initCtx (fun _ => none) (fun _ => false) (fun _ => false))
        Event.replaceResume).2.1).chat_history ≠ [] := by
  constructor
  · rfl
  · decide

/-- C2 amended: the Replace Resume handler resets the resume fields,
the `awaiting_next_options` / `show_next_jd_panel` stage flags and
`last_apply_output` to their initial values, but leaves the chat
transcript (and the rest of the session, e.g. `last_jd_meta`)
unchanged; it makes no remote call. -/
theorem C2_replace_resume_amended (s : Session) (c : Ctx)
    (h : resume_on_file s = true) :
    run_event s c Event.replaceResume
      = (Res.val (),
         { s with
           resume_meta := none
           resume_text := []
           awaiting_next_options := false
           show_next_jd_panel := false
           last_apply_output := [] },
         c) := by
  simp only [run_event, handle_event, handle_replace_resume]
  rw [getS_bind, if_pos h, modifyS_run]

/-- Witness for C2's amended theorem at the concrete session. -/
theorem C2_replace_resume_amended_witness :
    run_event C2_session (initCtx (fun _ => none) (fun _ => false) (fun _ => false))
        Event.replaceResume
      = (Res.val (),
         { C2_session with
           resume_meta := none
           resume_text := []
           awaiting_next_options := false
           show_next_jd_panel := false
           last_apply_output := [] },
         initCtx (fun _ => none) (fun _ => false) (fun _ => false)) :=
  C2_replace_resume_amended _ _ (by decide)

/-! ## C10: invalid A/B/C and level replies -/

/-- A session with a pasted resume, awaiting an A/B/C variant choice. -/
def C10_session : Session :=
  { initSession with
    resume_text := "my resume".data
    awaiting_ab_choice := true }

/-- A session with a pasted resume, awaiting a junior/mid/senior
choice. -/
def C10_level_session : Session :=
  { initSession with
    resume_text := "my resume".data
    awaiting_level_choice := true }

/-- C10 counterexample: replying "z" while an A/B/C choice is awaited
sends no request, but the session state does NOT remain entirely
unchanged — the user's reply is appended to `chat_history` (src/app.py
line 595) before the guard runs. -/
theorem C10_counterexample_history_grows :
    ((run_event C10_session (initCtx (fun _ => none) (fun _ => false) (fun _ => false))
        (Event.chatPrompt "z".data)).2.1) ≠ C10_session
    ∧ ((run_event C10_session (initCtx (fun _ => none) (fun _ => false) (fun _ => false))
        (Event.chatPrompt "z".data)).2.1).chat_history = [("user".data, "z".data)]
    ∧ ((run_event C10_session (initCtx (fun _ => none) (fun _ => false) (fun _ => false))
        (Event.chatPrompt "z".data)).2.2).trace = [] := by
  refine ⟨?_, ?_, ?_⟩ <;> decide

/-- C10 amended: when an A/B/C (resp. junior/mid/senior) choice is
awaited and the user's reply normalizes to none of the accepted
values, no model request is sent and the session is left unchanged
except for the user's reply being appended to `chat_history`; in
particular the awaiting flag stays raised and the context (trace,
call counters) is untouched. -/
theorem C10_invalid_reply_amended (s : Session) (c : Ctx) (txt : PyStr) :
    (need_resume s = false → s.awaiting_ab_bullet = false →
      s.awaiting_ab_choice = true →
      pyUpper (pyStrip txt) ≠ "A".data → pyUpper (pyStrip txt) ≠ "B".data →
      pyUpper (pyStrip txt) ≠ "C".data →
      run_event s c (Event.chatPrompt txt)
        = (Res.val (), { s with chat_history := s.chat_history ++ [("user".data, txt)] }, c))
    ∧ (need_resume s = false → s.awaiting_ab_bullet = false →
      s.awaiting_ab_choice = false → s.awaiting_level_choice = true →
      pyLower (pyStrip txt) ≠ "junior".data → pyLower (pyStrip txt) ≠ "mid".data →
      pyLower (pyStrip txt) ≠ "senior".data →
      run_event s c (Event.chatPrompt txt)
        = (Res.val (), { s with chat_history := s.chat_history ++ [("user".data, txt)] }, c)) := by
  constructor
  · intro h0 h1 h2 hA hB hC
    simp only [run_event, handle_event, handle_chat_prompt]
    rw [modifyS_bind, getS_bind]
    simp only [need_resume, Bool.not_eq_true'] at h0
    simp [need_resume, h0, h1, h2, hA, hB, hC, pure_run]
  · intro h0 h1 h2 h3 hj hm hs
    simp only [run_event, handle_event, handle_chat_prompt]
    rw [modifyS_bind, getS_bind]
    simp only [need_resume, Bool.not_eq_true'] at h0
    simp [need_resume, h0, h1, h2, h3, hj, hm, hs, pure_run]

/-- Witness for C10's amended theorem at the concrete sessions and the
reply "z". -/
theorem C10_invalid_reply_amended_witness :
    run_event C10_session (initCtx (fun _ => none) (fun _ => false) (fun _ => false))
        (Event.chatPrompt "z".data)
      = (Res.val (),
          { C10_session with chat_history := [("user".data, "z".data)] },
          initCtx (fun _ => none) (fun _ => false) (fun _ => false))
    ∧ run_event C10_level_session (initCtx (fun _ => none) (fun _ => false) (fun _ => false))
        (Event.chatPrompt "z".data)
      = (Res.val (),
          { C10_level_session with chat_history := [("user".data, "z".data)] },
          initCtx (fun _ => none) (fun _ => false) (fun _ => false)) :=
  ⟨(C10_invalid_reply_amended C10_session _ _).1 (by decide) (by decide) (by decide)
      (by decide) (by decide) (by decide),
   (C10_invalid_reply_amended C10_level_session _ _).2 (by decide) (by decide) (by decide)
      (by decide) (by decide) (by decide) (by decide)⟩

/-! ## C4: which operations sit inside a catch-all -/

/-- Whether a page rerun ended with an exception propagating out of
the script (uncaught by any `try`). -/
def is_uncaught {α : Type} (r : Res α) : Bool :=
  match r with
  | Res.exn _ => true
  | Res.val _ => false

/-- A session with a pasted resume on file. -/
def C4_session : Session := { initSession with resume_text := "resume".data }

/-- C4 counterexample: the "Use This JD" paste path (src/app.py lines
542–544) calls `run_autotailor_flow` — and through it the remote
generation call — outside any `try`; when the generation call raises,
the exception propagates uncaught out of the page script. -/
theorem C4_counterexample_paste_jd_uncaught :
    is_uncaught (run_event C4_session
        (initCtx (fun _ => none) (fun _ => false) (fun _ => false))
        (Event.pasteJD "a job description".data)).1 = true := by
  decide

/-- A `try`-wrapped block never lets an exception propagate. -/
theorem tryShow_not_uncaught (body : M Unit) (sc : Session × Ctx) :
    is_uncaught (tryShow body sc).1 = false := by
  unfold tryShow
  rcases body sc with ⟨r, s2, c2⟩
  cases r <;> rfl

/-- C4 amended: the file-upload handlers (resume, JD, next-JD) and the
option dispatch of the chat input are wrapped in catch-alls that turn
exceptions into inline messages, so those paths never propagate; the
paste-JD flows and the awaiting-reply handlers (A/B bullet, A/B
choice, level choice, pack selection) invoke the generation call with
no surrounding `try` and do propagate (see the counterexample). -/
theorem C4_caught_amended :
    (∀ s c (n : PyStr) (sz : Nat) (m : PyStr),
      is_uncaught (run_event s c (Event.uploadResume n sz m)).1 = false)
    ∧ (∀ s c (n : PyStr) (sz : Nat) (m : PyStr),
      is_uncaught (run_event s c (Event.uploadJD n sz m)).1 = false)
    ∧ (∀ s c (n : PyStr) (sz : Nat) (m : PyStr),
      is_uncaught (run_event s c (Event.uploadNextJD n sz m)).1 = false)
    ∧ (∀ s c (txt : PyStr), s.awaiting_ab_bullet = false → s.awaiting_ab_choice = false →
        s.awaiting_level_choice = false → s.awaiting_refine_pack_selection = false →
        is_uncaught (run_event s c (Event.chatPrompt txt)).1 = false) := by
  refine ⟨?_, ?_, ?_, ?_⟩
  · intro s c n sz m
    simp only [run_event, handle_event, handle_upload_resume]
    rw [getS_bind]
    by_cases h : resume_on_file s = true
    · rw [if_pos h, pure_run]
      rfl
    · rw [if_neg h]
      exact tryShow_not_uncaught _ _
  · intro s c n sz m
    simp only [run_event, handle_event, handle_upload_jd]
    rw [getS_bind]
    by_cases h : resume_on_file s = true
    · rw [if_pos h]
      exact tryShow_not_uncaught _ _
    · rw [if_neg h, pure_run]
      rfl
  · intro s c n sz m
    simp only [run_event, handle_event, handle_upload_next_jd]
    rw [getS_bind]
    by_cases h : next_jd_panel_shown s = true
    · rw [if_pos h]
      exact tryShow_not_uncaught _ _
    · rw [if_neg h, pure_run]
      rfl
  · intro s c txt h1 h2 h3 h4
    simp only [run_event, handle_event, handle_chat_prompt]
    rw [modifyS_bind, getS_bind]
    by_cases h0 : need_resume
        { s with chat_history := s.chat_history ++ [("user".data, txt)] } = true
    · rw [if_pos h0, pure_run]
      rfl
    · rw [if_neg h0, if_neg (by simpa using h1), if_neg (by simpa using h2),
        if_neg (by simpa using h3), packMatch_bind, if_neg (by simp [h4])]
      exact tryShow_not_uncaught _ _

/-- Witness for C4's amended theorem at concrete inputs: a failing
resume upload is caught, and a plain chat prompt with a failing
generation call is caught by the dispatch `try`. -/
theorem C4_caught_amended_witness :
    is_uncaught (run_event initSession
        (initCtx (fun _ => none) (fun _ => true) (fun _ => false))
        (Event.uploadResume "r.pdf".data 3 "application/pdf".data)).1 = false
    ∧ is_uncaught (run_event C4_session
        (initCtx (fun _ => none) (fun _ => false) (fun _ => false))
        (Event.chatPrompt "hello".data)).1 = false :=
  ⟨C4_caught_amended.1 _ _ _ _ _,
   C4_caught_amended.2.2.2 _ _ _ (by decide) (by decide) (by decide) (by decide)⟩

/-! ## C7: `chat_history` is append-only

`ChatMono m` says that running `m` from any state only ever extends
`chat_history` at its end (the old transcript stays a prefix), on
normal and on exceptional outcomes alike. -/

def ChatMono {α : Type} (m : M α) : Prop :=
  ∀ s c, s.chat_history <+: ((m (s, c)).2.1).chat_history

theorem chatMono_pure {α : Type} (a : α) : ChatMono (pure a : M α) :=
  fun _ _ => List.prefix_refl _

theorem chatMono_bind {α β : Type} {m : M α} {f : α → M β}
    (hm : ChatMono m) (hf : ∀ a, ChatMono (f a)) : ChatMono (m >>= f) := by
  intro s c
  rw [M_bind_run]
  rcases hres : m (s, c) with ⟨r, s1, c1⟩
  have h1 := hm s c
  rw [hres] at h1
  cases r with
  | val a => exact h1.trans (hf a s1 c1)
  | exn e => exact h1

theorem chatMono_ite {α : Type} (P : Prop) [Decidable P] {m1 m2 : M α}
    (h1 : ChatMono m1) (h2 : ChatMono m2) : ChatMono (if P then m1 else m2) := by
  split <;> assumption

theorem chatMono_getS : ChatMono getS :=
  fun _ _ => List.prefix_refl _

theorem chatMono_getPackMatch (txt : PyStr) : ChatMono (getPackMatch txt) :=
  fun _ _ => List.prefix_refl _

theorem chatMono_modifyS (f : Session → Session)
    (hf : ∀ s, s.chat_history <+: (f s).chat_history) : ChatMono (modifyS f) :=
  fun s _ => hf s

theorem chatMono_doSend (atts : List Nat) : ChatMono (doSend atts) := by
  intro s c
  rw [doSend_run]

theorem chatMono_doUpload (tag : Bool) : ChatMono (doUpload tag) := by
  intro s c
  rw [doUpload_run]
  split <;> exact List.prefix_refl _

theorem chatMono_doPoll (hs : List Nat) : ChatMono (doPoll hs) :=
  fun _ _ => List.prefix_refl _

theorem chatMono_tryShow {body : M Unit} (h : ChatMono body) :
    ChatMono (tryShow body) := by
  intro s c
  rw [tryShow_run]
  rcases hres : body (s, c) with ⟨r, s1, c1⟩
  have h1 := h s c
  rw [hres] at h1
  cases r <;> exact h1

theorem chatMono_auto_continue (jd_meta : Option FileMeta) (fuel : Nat) :
    ∀ combined, ChatMono (auto_continue jd_meta fuel combined) := by
  induction fuel with
  | zero => intro combined; exact chatMono_pure _
  | succ f ih =>
    intro combined
    simp only [auto_continue]
    refine chatMono_ite _ (chatMono_pure _) ?_
    refine chatMono_bind chatMono_getS (fun s => ?_)
    refine chatMono_bind (chatMono_doSend _) (fun cont => ?_)
    exact chatMono_ite _ (ih _) (chatMono_pure _)

theorem chatMono_run_autotailor_flow (jd_meta : Option FileMeta) (jdt : PyStr) :
    ChatMono (run_autotailor_flow jd_meta jdt) := by
  unfold run_autotailor_flow
  refine chatMono_bind chatMono_getS (fun s => ?_)
  refine chatMono_bind (chatMono_doSend _) (fun rp => ?_)
  refine chatMono_bind (chatMono_auto_continue _ _ _) (fun comb => ?_)
  dsimp only
  refine chatMono_bind chatMono_getS (fun s2 => ?_)
  refine chatMono_bind (chatMono_doSend _) (fun rest => ?_)
  dsimp only
  refine chatMono_bind (chatMono_modifyS _ (fun s3 => ?_)) (fun u => chatMono_pure _)
  exact List.prefix_append _ _

theorem chatMono_dispatch_option (opt : PyStr) : ChatMono (dispatch_option opt) := by
  unfold dispatch_option
  refine chatMono_bind chatMono_getS (fun s => ?_)
  refine chatMono_ite _ ?_ ?_
  · exact chatMono_bind (chatMono_doSend _)
      (fun u => chatMono_modifyS _ (fun s2 => List.prefix_refl _))
  refine chatMono_ite _ ?_ ?_
  · refine chatMono_bind (chatMono_modifyS _ (fun s2 => List.prefix_refl _)) (fun u => ?_)
    refine chatMono_bind chatMono_getS (fun s2 => ?_)
    exact chatMono_bind (chatMono_doSend _)
      (fun u2 => chatMono_modifyS _ (fun s3 => List.prefix_refl _))
  refine chatMono_ite _ ?_ ?_
  · exact chatMono_bind (chatMono_doSend _)
      (fun u => chatMono_modifyS _ (fun s2 => List.prefix_refl _))
  refine chatMono_ite _ ?_ ?_
  · exact chatMono_bind (chatMono_doSend _)
      (fun u => chatMono_modifyS _ (fun s2 => List.prefix_refl _))
  refine chatMono_ite _ ?_ ?_
  · exact chatMono_modifyS _ (fun s2 => List.prefix_refl _)
  refine chatMono_ite _ ?_ ?_
  · exact chatMono_modifyS _ (fun s2 => List.prefix_refl _)
  refine chatMono_ite _ ?_ ?_
  · exact chatMono_modifyS _ (fun s2 => List.prefix_refl _)
  refine chatMono_ite _ ?_ ?_
  · exact chatMono_modifyS _ (fun s2 => List.prefix_refl _)
  exact chatMono_bind (chatMono_doSend _)
    (fun u => chatMono_modifyS _ (fun s2 => List.prefix_refl _))

theorem chatMono_handle_chat_prompt (txt : PyStr) : ChatMono (handle_chat_prompt txt) := by
  unfold handle_chat_prompt
  refine chatMono_bind (chatMono_modifyS _ (fun s => List.prefix_append _ _)) (fun u => ?_)
  refine chatMono_bind chatMono_getS (fun s => ?_)
  refine chatMono_ite _ (chatMono_pure _) ?_
  refine chatMono_ite _ ?_ ?_
  · exact chatMono_bind (chatMono_doSend _)
      (fun u2 => chatMono_modifyS _ (fun s2 => List.prefix_refl _))
  refine chatMono_ite _ ?_ ?_
  · refine chatMono_ite _ ?_ (chatMono_pure _)
    refine chatMono_bind (chatMono_doSend _) (fun u2 => ?_)
    refine chatMono_bind chatMono_getS (fun s2 => ?_)
    exact chatMono_bind (chatMono_doSend _)
      (fun u3 => chatMono_modifyS _ (fun s3 => List.prefix_refl _))
  refine chatMono_ite _ ?_ ?_
  · refine chatMono_ite _ ?_ (chatMono_pure _)
    refine chatMono_bind (chatMono_doSend _) (fun u2 => ?_)
    refine chatMono_bind chatMono_getS (fun s2 => ?_)
    exact chatMono_bind (chatMono_doSend _)
      (fun u3 => chatMono_modifyS _ (fun s3 => List.prefix_refl _))
  refine chatMono_bind (chatMono_getPackMatch _) (fun pm => ?_)
  refine chatMono_ite _ ?_ ?_
  · refine chatMono_bind (chatMono_doSend _) (fun r1 => ?_)
    refine chatMono_bind (chatMono_auto_continue _ _ _) (fun comb => ?_)
    dsimp only
    refine chatMono_bind chatMono_getS (fun s2 => ?_)
    refine chatMono_bind (chatMono_doSend _) (fun rest => ?_)
    exact chatMono_modifyS _ (fun s3 => List.prefix_refl _)
  exact chatMono_tryShow (chatMono_dispatch_option _)

theorem chatMono_handle_event (e : Event) : ChatMono (handle_event e) := by
  cases e with
  | setResumeText txt =>
    unfold handle_event handle_set_resume_text
    refine chatMono_bind chatMono_getS (fun s => ?_)
    exact chatMono_ite _ (chatMono_pure _) (chatMono_modifyS _ (fun s2 => List.prefix_refl _))
  | uploadResume n sz m =>
    unfold handle_event handle_upload_resume
    refine chatMono_bind chatMono_getS (fun s => ?_)
    refine chatMono_ite _ (chatMono_pure _) ?_
    exact chatMono_tryShow (chatMono_bind (chatMono_doUpload _)
      (fun h => chatMono_modifyS _ (fun s2 => List.prefix_refl _)))
  | replaceResume =>
    unfold handle_event handle_replace_resume
    refine chatMono_bind chatMono_getS (fun s => ?_)
    exact chatMono_ite _ (chatMono_modifyS _ (fun s2 => List.prefix_refl _)) (chatMono_pure _)
  | uploadJD n sz m =>
    unfold handle_event handle_upload_jd
    refine chatMono_bind chatMono_getS (fun s => ?_)
    refine chatMono_ite _ ?_ (chatMono_pure _)
    refine chatMono_tryShow ?_
    refine chatMono_bind (chatMono_doUpload _) (fun h => ?_)
    refine chatMono_bind (chatMono_doPoll _) (fun u => ?_)
    exact chatMono_bind (chatMono_modifyS _ (fun s2 => List.prefix_refl _))
      (fun u2 => chatMono_run_autotailor_flow _ _)
  | pasteJD t =>
    unfold handle_event handle_paste_jd
    refine chatMono_bind chatMono_getS (fun s => ?_)
    refine chatMono_ite _ ?_ (chatMono_pure _)
    refine chatMono_bind (chatMono_modifyS _ (fun s2 => List.prefix_refl _)) (fun u => ?_)
    refine chatMono_ite _ ?_ (chatMono_pure _)
    exact chatMono_bind (chatMono_modifyS _ (fun s2 => List.prefix_refl _))
      (fun u2 => chatMono_run_autotailor_flow _ _)
  | uploadNextJD n sz m =>
    unfold handle_event handle_upload_next_jd
    refine chatMono_bind chatMono_getS (fun s => ?_)
    refine chatMono_ite _ ?_ (chatMono_pure _)
    refine chatMono_tryShow ?_
    refine chatMono_bind (chatMono_doUpload _) (fun h => ?_)
    refine chatMono_bind (chatMono_doPoll _) (fun u => ?_)
    exact chatMono_bind (chatMono_modifyS _ (fun s2 => List.prefix_refl _))
      (fun u2 => chatMono_run_autotailor_flow _ _)
  | pasteNextJD t =>
    unfold handle_event handle_paste_next_jd
    refine chatMono_bind chatMono_getS (fun s => ?_)
    refine chatMono_ite _ ?_ (chatMono_pure _)
    refine chatMono_ite _ ?_ (chatMono_pure _)
    exact chatMono_bind (chatMono_modifyS _ (fun s2 => List.prefix_refl _))
      (fun u2 => chatMono_run_autotailor_flow _ _)
  | chatPrompt t => exact chatMono_handle_chat_prompt t

/-- C7: `chat_history` is append-only.  Over any sequence of user
interactions, with any oracles, the transcript before the interactions
is a prefix of the transcript after them: every handler either leaves
`chat_history` unchanged or appends `(role, text)` entries at its end,
on normal and exceptional outcomes alike, so the existing transcript
is never modified or reordered. -/
theorem C7_chat_history_append_only (s : Session) (c : Ctx) (evs : List Event) :
    s.chat_history <+: ((run_events s c evs).1).chat_history := by
  induction evs generalizing s c with
  | nil => exact List.prefix_refl _
  | cons e rest ih =>
    simp only [run_events]
    exact (chatMono_handle_event e s c).trans (ih _ _)

/-! ## C1: which handles get polled before being attached

The counterexample below shows the claim as stated is false (the
resume handle is attached unpolled).  The amended discipline
(`attachesPolledOrResume`) is then proved as a global trace invariant:
the proof threads a Hoare-style triple through every handler, with the
session invariant that the handle held in `resume_meta` entered via
the resume uploader and the handle held in `last_jd_meta` has
completed a poll. -/

theorem resume_after_acc (res : List Nat) (tr : List Action) :
    resume_after res tr = res ++ resume_after [] tr := by
  induction tr generalizing res with
  | nil => simp [resume_after]
  | cons a rest ih =>
    cases a with
    | uploadResumeFile h =>
      simp only [resume_after]
      rw [ih (res ++ [h]), ih ([] ++ [h])]
      simp
    | uploadJDFile h => simpa only [resume_after] using ih res
    | pollFiles hs => simpa only [resume_after] using ih res
    | sendReq atts => simpa only [resume_after] using ih res

theorem polled_after_acc (polled : List Nat) (tr : List Action) :
    polled_after polled tr = polled ++ polled_after [] tr := by
  induction tr generalizing polled with
  | nil => simp [polled_after]
  | cons a rest ih =>
    cases a with
    | uploadResumeFile h => simpa only [polled_after] using ih polled
    | uploadJDFile h => simpa only [polled_after] using ih polled
    | pollFiles hs =>
      simp only [polled_after]
      rw [ih (polled ++ hs), ih ([] ++ hs)]
      simp
    | sendReq atts => simpa only [polled_after] using ih polled

theorem resume_after_append (res : List Nat) (tr1 tr2 : List Action) :
    resume_after res (tr1 ++ tr2) = resume_after (resume_after res tr1) tr2 := by
  induction tr1 generalizing res with
  | nil => simp [resume_after]
  | cons a rest ih =>
    cases a <;> simp only [List.cons_append, resume_after] <;> apply ih

theorem polled_after_append (polled : List Nat) (tr1 tr2 : List Action) :
    polled_after polled (tr1 ++ tr2) = polled_after (polled_after polled tr1) tr2 := by
  induction tr1 generalizing polled with
  | nil => simp [polled_after]
  | cons a rest ih =>
    cases a <;> simp only [List.cons_append, polled_after] <;> apply ih

theorem apr_append (res polled : List Nat) (tr1 tr2 : List Action) :
    attachesPolledOrResume res polled (tr1 ++ tr2)
      = (attachesPolledOrResume res polled tr1
         && attachesPolledOrResume (resume_after res tr1) (polled_after polled tr1) tr2) := by
  induction tr1 generalizing res polled with
  | nil => simp [attachesPolledOrResume, resume_after, polled_after]
  | cons a rest ih =>
    cases a with
    | uploadResumeFile h =>
      simp only [List.cons_append, attachesPolledOrResume, resume_after, polled_after]
      apply ih
    | uploadJDFile h =>
      simp only [List.cons_append, attachesPolledOrResume, resume_after, polled_after]
      apply ih
    | pollFiles hs =>
      simp only [List.cons_append, attachesPolledOrResume, resume_after, polled_after]
      apply ih
    | sendReq atts =>
      simp only [List.cons_append, attachesPolledOrResume, resume_after, polled_after,
        List.append_eq]
      rw [ih, Bool.and_assoc]

/-- The handle entered through the resume uploader at some point of
the recorded trace. -/
def handleInR (c : Ctx) (h : Nat) : Prop := h ∈ resume_after [] c.trace

/-- The handle completed an `ensure_active_files` poll at some point
of the recorded trace. -/
def handleInP (c : Ctx) (h : Nat) : Prop := h ∈ polled_after [] c.trace

/-- Session invariant: the handle held in `resume_meta` came from the
resume uploader, and the handle held in `last_jd_meta` has completed a
poll. -/
def SessInv (s : Session) (c : Ctx) : Prop :=
  (∀ m, s.resume_meta = some m → handleInR c m.file)
  ∧ (∀ m, s.last_jd_meta = some m → handleInP c m.file)

/-- The global invariant: the trace so far satisfies the amended
discipline, and the session's held handles are accounted for. -/
def GI (s : Session) (c : Ctx) : Prop :=
  attachesPolledOrResume [] [] c.trace = true ∧ SessInv s c

/-- The JD metadata handed to a flow has a polled handle. -/
def jdPolled (jd_meta : Option FileMeta) (c : Ctx) : Prop :=
  ∀ m, jd_meta = some m → handleInP c m.file

theorem handleInR_extend (c c2 : Ctx) (seg : List Action)
    (hc : c2.trace = c.trace ++ seg) (h : Nat) (hh : handleInR c h) :
    handleInR c2 h := by
  unfold handleInR at hh ⊢
  rw [hc, resume_after_append, resume_after_acc]
  exact List.mem_append_left _ hh

theorem handleInP_extend (c c2 : Ctx) (seg : List Action)
    (hc : c2.trace = c.trace ++ seg) (h : Nat) (hh : handleInP c h) :
    handleInP c2 h := by
  unfold handleInP at hh ⊢
  rw [hc, polled_after_append, polled_after_acc]
  exact List.mem_append_left _ hh

theorem SessInv_extend (s : Session) (c c2 : Ctx) (seg : List Action)
    (hc : c2.trace = c.trace ++ seg) (h : SessInv s c) : SessInv s c2 :=
  ⟨fun m hm => handleInR_extend c c2 seg hc m.file (h.1 m hm),
   fun m hm => handleInP_extend c c2 seg hc m.file (h.2 m hm)⟩

theorem jdPolled_extend (jd_meta : Option FileMeta) (c c2 : Ctx) (seg : List Action)
    (hc : c2.trace = c.trace ++ seg) (h : jdPolled jd_meta c) : jdPolled jd_meta c2 :=
  fun m hm => handleInP_extend c c2 seg hc m.file (h m hm)

/-- Session updates that keep both held-file fields preserve the
session invariant. -/
theorem SessInv_update (s s2 : Session) (c : Ctx)
    (hr : s2.resume_meta = s.resume_meta)
    (hj : s2.last_jd_meta = s.last_jd_meta)
    (h : SessInv s c) : SessInv s2 c :=
  ⟨fun m hm => h.1 m (hr ▸ hm), fun m hm => h.2 m (hj ▸ hm)⟩

theorem SessInv_update_resume_none (s s2 : Session) (c : Ctx)
    (hr : s2.resume_meta = none)
    (hj : s2.last_jd_meta = s.last_jd_meta)
    (h : SessInv s c) : SessInv s2 c :=
  ⟨fun m hm => absurd (hr ▸ hm : (none : Option FileMeta) = some m) (by simp),
   fun m hm => h.2 m (hj ▸ hm)⟩

theorem SessInv_update_resume_some (s s2 : Session) (c : Ctx)
    (m0 : FileMeta) (hr : s2.resume_meta = some m0)
    (hj : s2.last_jd_meta = s.last_jd_meta)
    (hm0 : handleInR c m0.file)
    (h : SessInv s c) : SessInv s2 c := by
  refine ⟨fun m hm => ?_, fun m hm => h.2 m (hj ▸ hm)⟩
  rw [hr] at hm
  cases hm
  exact hm0

theorem SessInv_update_jd_none (s s2 : Session) (c : Ctx)
    (hr : s2.resume_meta = s.resume_meta)
    (hj : s2.last_jd_meta = none)
    (h : SessInv s c) : SessInv s2 c :=
  ⟨fun m hm => h.1 m (hr ▸ hm),
   fun m hm => absurd (hj ▸ hm : (none : Option FileMeta) = some m) (by simp)⟩

theorem SessInv_update_jd_some (s s2 : Session) (c : Ctx)
    (m0 : FileMeta) (hr : s2.resume_meta = s.resume_meta)
    (hj : s2.last_jd_meta = some m0)
    (hm0 : handleInP c m0.file)
    (h : SessInv s c) : SessInv s2 c := by
  refine ⟨fun m hm => h.1 m (hr ▸ hm), fun m hm => ?_⟩
  rw [hj] at hm
  cases hm
  exact hm0

/-- The attachments every prompt builder produces are covered by the
invariant: the resume handle came from the resume uploader and the JD
handle was polled. -/
theorem standard_attachments_ok (s : Session) (c : Ctx) (jd_meta : Option FileMeta)
    (hinv : SessInv s c) (hjd : jdPolled jd_meta c) :
    ∀ h ∈ standard_attachments s jd_meta, handleInP c h ∨ handleInR c h := by
  intro h hmem
  unfold standard_attachments at hmem
  rcases hr : s.resume_meta with _ | m <;> rcases hj : jd_meta with _ | mj <;>
    rw [hr, hj] at hmem <;> simp at hmem
  · rw [hmem]
    exact Or.inl (hjd mj hj)
  · rw [hmem]
    exact Or.inr (hinv.1 m hr)
  · rcases hmem with hmem | hmem
    · rw [hmem]
      exact Or.inr (hinv.1 m hr)
    · rw [hmem]
      exact Or.inl (hjd mj hj)

/-! ### A Hoare triple over the page-script monad -/

/-- `MTriple P m Q E`: from any state satisfying `P`, a normal result
of `m` satisfies `Q` and an exceptional one satisfies `E` (the state
at the raise point). -/
def MTriple {α : Type} (P : Session → Ctx → Prop) (m : M α)
    (Q : α → Session → Ctx → Prop) (E : Session → Ctx → Prop) : Prop :=
  ∀ s c, P s c →
    (∀ a s2 c2, m (s, c) = (Res.val a, s2, c2) → Q a s2 c2)
    ∧ (∀ e s2 c2, m (s, c) = (Res.exn e, s2, c2) → E s2 c2)

theorem mtriple_conseq {α : Type} {P P2 : Session → Ctx → Prop} {m : M α}
    {Q Q2 : α → Session → Ctx → Prop} {E E2 : Session → Ctx → Prop}
    (h : MTriple P m Q E) (hP : ∀ s c, P2 s c → P s c)
    (hQ : ∀ a s c, Q a s c → Q2 a s c) (hE : ∀ s c, E s c → E2 s c) :
    MTriple P2 m Q2 E2 := by
  intro s c hp
  obtain ⟨hv, he⟩ := h s c (hP s c hp)
  exact ⟨fun a s2 c2 heq => hQ a s2 c2 (hv a s2 c2 heq),
         fun e s2 c2 heq => hE s2 c2 (he e s2 c2 heq)⟩

theorem mtriple_bind {α β : Type} {P : Session → Ctx → Prop} {m : M α}
    {Q : α → Session → Ctx → Prop} {f : α → M β} {R : β → Session → Ctx → Prop}
    {E : Session → Ctx → Prop}
    (hm : MTriple P m Q E) (hf : ∀ a, MTriple (Q a) (f a) R E) :
    MTriple P (m >>= f) R E := by
  intro s c hp
  constructor
  · intro b s2 c2 heq
    rw [M_bind_run] at heq
    rcases hm1 : m (s, c) with ⟨r, s1, c1⟩
    rw [hm1] at heq
    cases r with
    | val a =>
      exact (hf a s1 c1 ((hm s c hp).1 a s1 c1 hm1)).1 b s2 c2 heq
    | exn e => exact absurd heq (by simp)
  · intro e s2 c2 heq
    rw [M_bind_run] at heq
    rcases hm1 : m (s, c) with ⟨r, s1, c1⟩
    rw [hm1] at heq
    cases r with
    | val a =>
      exact (hf a s1 c1 ((hm s c hp).1 a s1 c1 hm1)).2 e s2 c2 heq
    | exn e1 =>
      obtain ⟨he1, hs1, hc1⟩ : Res.exn (α := β) e1 = Res.exn e ∧ s1 = s2 ∧ c1 = c2 := by
        simpa [Prod.ext_iff] using heq
      subst hs1; subst hc1
      cases he1
      exact (hm s c hp).2 _ _ _ hm1

theorem mtriple_ite {α : Type} (P0 : Prop) [Decidable P0]
    {P : Session → Ctx → Prop} {Q : α → Session → Ctx → Prop}
    {E : Session → Ctx → Prop} {m1 m2 : M α}
    (h1 : P0 → MTriple P m1 Q E) (h2 : ¬P0 → MTriple P m2 Q E) :
    MTriple P (if P0 then m1 else m2) Q E := by
  split
  · exact h1 ‹_›
  · exact h2 ‹_›

theorem mtriple_pure {α : Type} (P : Session → Ctx → Prop) (a : α)
    (E : Session → Ctx → Prop) :
    MTriple P (pure a) (fun b s c => b = a ∧ P s c) E := by
  intro s c hp
  constructor
  · intro b s2 c2 heq
    rw [pure_run] at heq
    obtain ⟨h1, h2, h3⟩ : Res.val (α := α) a = Res.val b ∧ s = s2 ∧ c = c2 := by
      simpa [Prod.ext_iff] using heq
    subst h2; subst h3
    cases h1
    exact ⟨rfl, hp⟩
  · intro e s2 c2 heq
    rw [pure_run] at heq
    exact absurd heq (by simp)

theorem mtriple_getS (P : Session → Ctx → Prop) (E : Session → Ctx → Prop) :
    MTriple P getS (fun a s c => a = s ∧ P s c) E := by
  intro s c hp
  constructor
  · intro a s2 c2 heq
    obtain ⟨h1, h2, h3⟩ : Res.val s = Res.val a ∧ s = s2 ∧ c = c2 := by
      simpa [Prod.ext_iff, getS] using heq
    subst h2; subst h3
    cases h1
    exact ⟨rfl, hp⟩
  · intro e s2 c2 heq
    exact absurd heq (by simp [getS])

theorem mtriple_getPackMatch (txt : PyStr) (P : Session → Ctx → Prop)
    (E : Session → Ctx → Prop) :
    MTriple P (getPackMatch txt) (fun _ s c => P s c) E := by
  intro s c hp
  constructor
  · intro a s2 c2 heq
    obtain ⟨h1, h2, h3⟩ : Res.val (c.fullmatch_packs txt) = Res.val a ∧ s = s2 ∧ c = c2 := by
      simpa [Prod.ext_iff, getPackMatch] using heq
    subst h2; subst h3
    exact hp
  · intro e s2 c2 heq
    exact absurd heq (by simp [getPackMatch])

theorem mtriple_modifyS (f : Session → Session) (Q : Unit → Session → Ctx → Prop)
    (E : Session → Ctx → Prop) :
    MTriple (fun s c => Q () (f s) c) (modifyS f) Q E := by
  intro s c hp
  constructor
  · intro a s2 c2 heq
    obtain ⟨h1, h2, h3⟩ : Res.val () = Res.val a ∧ f s = s2 ∧ c = c2 := by
      simpa [Prod.ext_iff, modifyS] using heq
    subst h2; subst h3
    cases a
    exact hp
  · intro e s2 c2 heq
    exact absurd heq (by simp [modifyS])

theorem mtriple_doSend (atts : List Nat) (F : Session → Ctx → Prop)
    (hF : ∀ s c seg c2, c2.trace = c.trace ++ seg → F s c → F s c2) :
    MTriple (fun s c => GI s c ∧ F s c ∧ (∀ h ∈ atts, handleInP c h ∨ handleInR c h))
      (doSend atts)
      (fun _ s c => GI s c ∧ F s c)
      (fun s c => GI s c ∧ F s c) := by
  intro s c hp
  obtain ⟨⟨hapr, hinv⟩, hf, hatts⟩ := hp
  have htr : (sendCtx atts c).trace = c.trace ++ [Action.sendReq atts] := rfl
  have hGI2 : GI s (sendCtx atts c) := by
    constructor
    · show attachesPolledOrResume [] [] (sendCtx atts c).trace = true
      rw [htr, apr_append, hapr]
      simp only [Bool.true_and, attachesPolledOrResume, Bool.and_true]
      rw [List.all_eq_true]
      intro h hmem
      rcases hatts h hmem with hP | hR
      · have hm : h ∈ polled_after [] c.trace := hP
        simp [hm]
      · have hm : h ∈ resume_after [] c.trace := hR
        simp [hm]
    · exact SessInv_extend s c _ _ htr hinv
  have hF2 : F s (sendCtx atts c) := hF s c _ _ htr hf
  constructor
  · intro a s2 c2 heq
    rw [doSend_run] at heq
    obtain ⟨h2, h3⟩ : s = s2 ∧ sendCtx atts c = c2 := by
      simpa [Prod.ext_iff] using congrArg (fun x => x.2) heq
    subst h2; subst h3
    exact ⟨hGI2, hF2⟩
  · intro e s2 c2 heq
    rw [doSend_run] at heq
    obtain ⟨h2, h3⟩ : s = s2 ∧ sendCtx atts c = c2 := by
      simpa [Prod.ext_iff] using congrArg (fun x => x.2) heq
    subst h2; subst h3
    exact ⟨hGI2, hF2⟩

theorem mtriple_doUpload (tag : Bool) (F : Session → Ctx → Prop)
    (hF : ∀ s c seg c2, c2.trace = c.trace ++ seg → F s c → F s c2) :
    MTriple (fun s c => GI s c ∧ F s c) (doUpload tag)
      (fun h s c => GI s c ∧ F s c ∧ (tag = true → handleInR c h))
      (fun s c => GI s c ∧ F s c) := by
  intro s c hp
  obtain ⟨⟨hapr, hinv⟩, hf⟩ := hp
  constructor
  · intro a s2 c2 heq
    rw [doUpload_run] at heq
    by_cases hfail : c.uploadFails c.uploadCount = true
    · rw [if_pos hfail] at heq
      exact absurd heq (by simp)
    · rw [if_neg hfail] at heq
      have ha : Res.val c.nextHandle = Res.val a := congrArg (fun x => x.1) heq
      obtain ⟨h2, h3⟩ : s = s2 ∧ uploadOkCtx tag c = c2 := by
        simpa [Prod.ext_iff] using congrArg (fun x => x.2) heq
      subst h2; subst h3
      cases ha
      have htr : (uploadOkCtx tag c).trace
          = c.trace ++ [if tag then Action.uploadResumeFile c.nextHandle
                        else Action.uploadJDFile c.nextHandle] := rfl
      refine ⟨⟨?_, SessInv_extend s c _ _ htr hinv⟩, hF s c _ _ htr hf, ?_⟩
      · show attachesPolledOrResume [] [] (uploadOkCtx tag c).trace = true
        rw [htr, apr_append, hapr]
        cases tag <;> simp [attachesPolledOrResume]
      · intro htag
        subst htag
        show c.nextHandle ∈ resume_after [] (uploadOkCtx true c).trace
        rw [htr]
        simp only [if_true]
        rw [resume_after_append]
        simp only [resume_after]
        exact List.mem_append_right _ (by simp)
  · intro e s2 c2 heq
    rw [doUpload_run] at heq
    by_cases hfail : c.uploadFails c.uploadCount = true
    · rw [if_pos hfail] at heq
      obtain ⟨h2, h3⟩ : s = s2 ∧ ({ c with uploadCount := c.uploadCount + 1 } : Ctx) = c2 := by
        simpa [Prod.ext_iff] using congrArg (fun x => x.2) heq
      subst h2; subst h3
      have htr : ({ c with uploadCount := c.uploadCount + 1 } : Ctx).trace
          = c.trace ++ [] := by simp
      exact ⟨⟨hapr, SessInv_extend s c _ _ htr hinv⟩, hF s c _ _ htr hf⟩
    · rw [if_neg hfail] at heq
      exact absurd heq (by simp)

theorem mtriple_doPoll (hs : List Nat) (F : Session → Ctx → Prop)
    (hF : ∀ s c seg c2, c2.trace = c.trace ++ seg → F s c → F s c2)
    (E : Session → Ctx → Prop) :
    MTriple (fun s c => GI s c ∧ F s c) (doPoll hs)
      (fun _ s c => GI s c ∧ F s c ∧ ∀ h ∈ hs, handleInP c h) E := by
  intro s c hp
  obtain ⟨⟨hapr, hinv⟩, hf⟩ := hp
  constructor
  · intro a s2 c2 heq
    obtain ⟨h2, h3⟩ : s = s2 ∧ ({ c with trace := c.trace ++ [Action.pollFiles hs] } : Ctx) = c2 := by
      simpa [Prod.ext_iff, doPoll] using congrArg (fun x => x.2) heq
    subst h2; subst h3
    have htr : ({ c with trace := c.trace ++ [Action.pollFiles hs] } : Ctx).trace
        = c.trace ++ [Action.pollFiles hs] := rfl
    refine ⟨⟨?_, SessInv_extend s c _ _ htr hinv⟩, hF s c _ _ htr hf, ?_⟩
    · show attachesPolledOrResume [] []
        (({ c with trace := c.trace ++ [Action.pollFiles hs] } : Ctx).trace) = true
      rw [htr, apr_append, hapr]
      simp [attachesPolledOrResume]
    · intro h hmem
      show h ∈ polled_after [] (({ c with trace := c.trace ++ [Action.pollFiles hs] } : Ctx).trace)
      rw [htr, polled_after_append]
      simp only [polled_after]
      simp [hmem]
  · intro e s2 c2 heq
    exact absurd heq (by simp [doPoll])

theorem mtriple_tryShow {P : Session → Ctx → Prop} {body : M Unit}
    {Q : Unit → Session → Ctx → Prop} {E : Session → Ctx → Prop}
    (h : MTriple P body Q E) (E2 : Session → Ctx → Prop) :
    MTriple P (tryShow body) (fun _ s c => Q () s c ∨ E s c) E2 := by
  intro s c hp
  obtain ⟨hv, he⟩ := h s c hp
  constructor
  · intro a s2 c2 heq
    rw [tryShow_run] at heq
    rcases hres : body (s, c) with ⟨r, s1, c1⟩
    rw [hres] at heq
    cases r with
    | val a1 =>
      obtain ⟨h2, h3⟩ : s1 = s2 ∧ c1 = c2 := by
        simpa [Prod.ext_iff] using congrArg (fun x => x.2) heq
      subst h2; subst h3
      cases a1
      exact Or.inl (hv () _ _ hres)
    | exn e1 =>
      obtain ⟨h2, h3⟩ : s1 = s2 ∧ c1 = c2 := by
        simpa [Prod.ext_iff] using congrArg (fun x => x.2) heq
      subst h2; subst h3
      exact Or.inr (he e1 _ _ hres)
  · intro e s2 c2 heq
    rw [tryShow_run] at heq
    rcases hres : body (s, c) with ⟨r, s1, c1⟩
    rw [hres] at heq
    cases r <;> exact absurd heq (by simp)

/-- The invariant carried through a flow working on `jd_meta`. -/
def GIjd (jd_meta : Option FileMeta) (s : Session) (c : Ctx) : Prop :=
  GI s c ∧ jdPolled jd_meta c

theorem mtriple_auto_continue (jd_meta : Option FileMeta) (fuel : Nat) :
    ∀ combined, MTriple (GIjd jd_meta) (auto_continue jd_meta fuel combined)
      (fun _ => GIjd jd_meta) GI := by
  induction fuel with
  | zero =>
    intro combined
    exact mtriple_conseq (mtriple_pure (GIjd jd_meta) combined GI)
      (fun s c h => h) (fun a s c h => h.2) (fun s c h => h)
  | succ f ih =>
    intro combined
    simp only [auto_continue]
    refine mtriple_ite _ (fun _ => ?_) (fun _ => ?_)
    · exact mtriple_conseq (mtriple_pure (GIjd jd_meta) combined GI)
        (fun s c h => h) (fun a s c h => h.2) (fun s c h => h)
    · refine mtriple_bind (mtriple_getS (GIjd jd_meta) GI) (fun a => ?_)
      have hsend : MTriple (fun s c => a = s ∧ GIjd jd_meta s c)
          (doSend (standard_attachments a jd_meta)) (fun _ => GIjd jd_meta) GI := by
        refine mtriple_conseq (mtriple_doSend (standard_attachments a jd_meta)
            (fun _ c => jdPolled jd_meta c)
            (fun s c seg c2 hc hjp => jdPolled_extend _ _ _ _ hc hjp)) ?_ ?_ ?_
        · intro s c h
          obtain ⟨has, hgi, hjp⟩ := h
          subst has
          exact ⟨hgi, hjp, standard_attachments_ok _ _ _ hgi.2 hjp⟩
        · exact fun a2 s c h => h
        · exact fun s c h => h.1
      refine mtriple_bind hsend (fun cont => ?_)
      refine mtriple_ite _ (fun _ => ?_) (fun _ => ?_)
      · exact ih _
      · exact mtriple_conseq (mtriple_pure (GIjd jd_meta) combined GI)
          (fun s c h => h) (fun a2 s c h => h.2) (fun s c h => h)

theorem mtriple_run_autotailor_flow (jd_meta : Option FileMeta) (jdt : PyStr) :
    MTriple (GIjd jd_meta) (run_autotailor_flow jd_meta jdt)
      (fun _ s c => GI s c) GI := by
  unfold run_autotailor_flow
  refine mtriple_bind (mtriple_getS (GIjd jd_meta) GI) (fun a => ?_)
  have hsend : MTriple (fun s c => a = s ∧ GIjd jd_meta s c)
      (doSend (standard_attachments a jd_meta)) (fun _ => GIjd jd_meta) GI := by
    refine mtriple_conseq (mtriple_doSend (standard_attachments a jd_meta)
        (fun _ c => jdPolled jd_meta c)
        (fun s c seg c2 hc hjp => jdPolled_extend _ _ _ _ hc hjp)) ?_ ?_ ?_
    · intro s c h
      obtain ⟨has, hgi, hjp⟩ := h
      subst has
      exact ⟨hgi, hjp, standard_attachments_ok _ _ _ hgi.2 hjp⟩
    · exact fun a2 s c h => h
    · exact fun s c h => h.1
  refine mtriple_bind hsend (fun rp => ?_)
  refine mtriple_bind (mtriple_auto_continue jd_meta 3 rp) (fun comb => ?_)
  dsimp only
  refine mtriple_bind (mtriple_getS (GIjd jd_meta) GI) (fun a2 => ?_)
  have hsend2 : MTriple (fun s c => a2 = s ∧ GIjd jd_meta s c)
      (doSend (standard_attachments a2 jd_meta)) (fun _ => GIjd jd_meta) GI := by
    refine mtriple_conseq (mtriple_doSend (standard_attachments a2 jd_meta)
        (fun _ c => jdPolled jd_meta c)
        (fun s c seg c2 hc hjp => jdPolled_extend _ _ _ _ hc hjp)) ?_ ?_ ?_
    · intro s c h
      obtain ⟨has, hgi, hjp⟩ := h
      subst has
      exact ⟨hgi, hjp, standard_attachments_ok _ _ _ hgi.2 hjp⟩
    · exact fun a3 s c h => h
    · exact fun s c h => h.1
  refine mtriple_bind hsend2 (fun rest => ?_)
  dsimp only
  have hmod : MTriple (GIjd jd_meta)
      (modifyS (fun s3 => { s3 with
        last_apply_output := pyStrip (rstrip (trim_after_end_resume comb)
          ++ "\n\n".data ++ lstrip rest)
        awaiting_next_options := true
        show_next_jd_panel := true
        chat_history := s3.chat_history ++ [("assistant".data,
          pyStrip (rstrip (trim_after_end_resume comb) ++ "\n\n".data ++ lstrip rest))] }))
      (fun _ s c => GI s c) GI := by
    refine mtriple_conseq (mtriple_modifyS _ (fun _ s c => GI s c) GI) ?_ ?_ ?_
    · intro s c h
      exact ⟨h.1.1, SessInv_update s _ c rfl rfl h.1.2⟩
    · exact fun a3 s c h => h
    · exact fun s c h => h
  refine mtriple_bind hmod (fun u => ?_)
  exact mtriple_conseq (mtriple_pure (fun s c => GI s c) () GI)
    (fun s c h => h) (fun a3 s c h => h.2) (fun s c h => h)

/-- A request built from the freshly read session `a` attaches only
handles that the invariant covers. -/
theorem mtriple_send_self (a : Session) :
    MTriple (fun s c => a = s ∧ GI s c)
      (doSend (standard_attachments a a.last_jd_meta))
      (fun _ => GI) GI := by
  refine mtriple_conseq (mtriple_doSend (standard_attachments a a.last_jd_meta)
      (fun _ _ => True) (fun _ _ _ _ _ _ => trivial)) ?_ ?_ ?_
  · intro s c h
    obtain ⟨has, hgi⟩ := h
    subst has
    exact ⟨hgi, trivial,
      standard_attachments_ok _ _ _ hgi.2 (fun m hm => hgi.2.2 m hm)⟩
  · exact fun a2 s c h => h.1
  · exact fun s c h => h.1

/-- A state update that keeps both held-file fields preserves the
global invariant. -/
theorem mtriple_modify_keep (f : Session → Session)
    (hr : ∀ s, (f s).resume_meta = s.resume_meta)
    (hj : ∀ s, (f s).last_jd_meta = s.last_jd_meta) :
    MTriple GI (modifyS f) (fun _ => GI) GI := by
  refine mtriple_conseq (mtriple_modifyS f (fun _ s c => GI s c) GI) ?_ ?_ ?_
  · intro s c h
    exact ⟨h.1, SessInv_update s (f s) c (hr s) (hj s) h.2⟩
  · exact fun a s c h => h
  · exact fun s c h => h

/-- A state update that clears `last_jd_meta` (keeping `resume_meta`)
preserves the global invariant. -/
theorem mtriple_modify_jd_none (f : Session → Session)
    (hr : ∀ s, (f s).resume_meta = s.resume_meta)
    (hj : ∀ s, (f s).last_jd_meta = none) :
    MTriple GI (modifyS f) (fun _ => GI) GI := by
  refine mtriple_conseq (mtriple_modifyS f (fun _ s c => GI s c) GI) ?_ ?_ ?_
  · intro s c h
    exact ⟨h.1, SessInv_update_jd_none s (f s) c (hr s) (hj s) h.2⟩
  · exact fun a s c h => h
  · exact fun s c h => h

theorem mtriple_dispatch_option (opt : PyStr) :
    MTriple GI (dispatch_option opt) (fun _ => GI) GI := by
  unfold dispatch_option
  refine mtriple_bind (mtriple_getS GI GI) (fun a => ?_)
  refine mtriple_ite _ (fun _ => ?_) (fun _ => ?_)
  · exact mtriple_bind (mtriple_send_self a)
      (fun u => mtriple_modify_keep _ (fun s => rfl) (fun s => rfl))
  refine mtriple_ite _ (fun _ => ?_) (fun _ => ?_)
  · refine mtriple_bind (mtriple_conseq
      (mtriple_modify_keep _ (fun s => rfl) (fun s => rfl))
      (fun s c h => h.2) (fun x s c h => h) (fun s c h => h)) (fun u => ?_)
    refine mtriple_bind (mtriple_getS GI GI) (fun a2 => ?_)
    exact mtriple_bind (mtriple_send_self a2)
      (fun u2 => mtriple_modify_keep _ (fun s => rfl) (fun s => rfl))
  refine mtriple_ite _ (fun _ => ?_) (fun _ => ?_)
  · exact mtriple_bind (mtriple_send_self a)
      (fun u => mtriple_modify_keep _ (fun s => rfl) (fun s => rfl))
  refine mtriple_ite _ (fun _ => ?_) (fun _ => ?_)
  · exact mtriple_bind (mtriple_send_self a)
      (fun u => mtriple_modify_keep _ (fun s => rfl) (fun s => rfl))
  refine mtriple_ite _ (fun _ => ?_) (fun _ => ?_)
  · exact mtriple_conseq (mtriple_modify_keep _ (fun s => rfl) (fun s => rfl))
      (fun s c h => h.2) (fun x s c h => h) (fun s c h => h)
  refine mtriple_ite _ (fun _ => ?_) (fun _ => ?_)
  · exact mtriple_conseq (mtriple_modify_keep _ (fun s => rfl) (fun s => rfl))
      (fun s c h => h.2) (fun x s c h => h) (fun s c h => h)
  refine mtriple_ite _ (fun _ => ?_) (fun _ => ?_)
  · exact mtriple_conseq (mtriple_modify_keep _ (fun s => rfl) (fun s => rfl))
      (fun s c h => h.2) (fun x s c h => h) (fun s c h => h)
  refine mtriple_ite _ (fun _ => ?_) (fun _ => ?_)
  · exact mtriple_conseq (mtriple_modify_jd_none _ (fun s => rfl) (fun s => rfl))
      (fun s c h => h.2) (fun x s c h => h) (fun s c h => h)
  exact mtriple_bind (mtriple_send_self a)
    (fun u => mtriple_modify_keep _ (fun s => rfl) (fun s => rfl))

theorem mtriple_handle_chat_prompt (txt : PyStr) :
    MTriple GI (handle_chat_prompt txt) (fun _ => GI) GI := by
  unfold handle_chat_prompt
  refine mtriple_bind (mtriple_modify_keep _ (fun s => rfl) (fun s => rfl)) (fun u => ?_)
  refine mtriple_bind (mtriple_getS GI GI) (fun a => ?_)
  refine mtriple_ite _ (fun _ => ?_) (fun _ => ?_)
  · exact mtriple_conseq (mtriple_pure (fun s c => a = s ∧ GI s c) () GI)
      (fun s c h => h) (fun x s c h => h.2.2) (fun s c h => h)
  refine mtriple_ite _ (fun _ => ?_) (fun _ => ?_)
  · exact mtriple_bind (mtriple_send_self a)
      (fun u2 => mtriple_modify_keep _ (fun s => rfl) (fun s => rfl))
  refine mtriple_ite _ (fun _ => ?_) (fun _ => ?_)
  · refine mtriple_ite _ (fun _ => ?_) (fun _ => ?_)
    · refine mtriple_bind (mtriple_send_self a) (fun u2 => ?_)
      refine mtriple_bind (mtriple_getS GI GI) (fun a2 => ?_)
      exact mtriple_bind (mtriple_send_self a2)
        (fun u3 => mtriple_modify_keep _ (fun s => rfl) (fun s => rfl))
    · exact mtriple_conseq (mtriple_pure (fun s c => a = s ∧ GI s c) () GI)
        (fun s c h => h) (fun x s c h => h.2.2) (fun s c h => h)
  refine mtriple_ite _ (fun _ => ?_) (fun _ => ?_)
  · refine mtriple_ite _ (fun _ => ?_) (fun _ => ?_)
    · refine mtriple_bind (mtriple_send_self a) (fun u2 => ?_)
      refine mtriple_bind (mtriple_getS GI GI) (fun a2 => ?_)
      exact mtriple_bind (mtriple_send_self a2)
        (fun u3 => mtriple_modify_keep _ (fun s => rfl) (fun s => rfl))
    · exact mtriple_conseq (mtriple_pure (fun s c => a = s ∧ GI s c) () GI)
        (fun s c h => h) (fun x s c h => h.2.2) (fun s c h => h)
  refine mtriple_bind (mtriple_getPackMatch txt (fun s c => a = s ∧ GI s c) GI)
    (fun pm => ?_)
  refine mtriple_ite _ (fun _ => ?_) (fun _ => ?_)
  · have hsend : MTriple (fun s c => a = s ∧ GI s c)
        (doSend (standard_attachments a a.last_jd_meta))
        (fun _ => GIjd a.last_jd_meta) GI := by
      refine mtriple_conseq (mtriple_doSend (standard_attachments a a.last_jd_meta)
          (fun _ c => jdPolled a.last_jd_meta c)
          (fun s c seg c2 hc hjp => jdPolled_extend _ _ _ _ hc hjp)) ?_ ?_ ?_
      · intro s c h
        obtain ⟨has, hgi⟩ := h
        subst has
        exact ⟨hgi, fun m hm => hgi.2.2 m hm,
          standard_attachments_ok _ _ _ hgi.2 (fun m hm => hgi.2.2 m hm)⟩
      · exact fun a2 s c h => h
      · exact fun s c h => h.1
    refine mtriple_bind hsend (fun r1 => ?_)
    refine mtriple_bind (mtriple_auto_continue a.last_jd_meta 3 r1) (fun comb => ?_)
    dsimp only
    refine mtriple_bind (mtriple_conseq (mtriple_getS GI GI)
      (fun s c h => h.1) (fun x s c h => h) (fun s c h => h)) (fun a2 => ?_)
    refine mtriple_bind (mtriple_send_self a2) (fun rest => ?_)
    exact mtriple_modify_keep _ (fun s => rfl) (fun s => rfl)
  · refine mtriple_conseq (mtriple_tryShow (mtriple_dispatch_option
      (pyLower (pyStrip txt))) GI) ?_ ?_ ?_
    · exact fun s c h => h.2
    · exact fun x s c h => h.elim (fun h2 => h2) (fun h2 => h2)
    · exact fun s c h => h

/-- The pure-branch triple used when a handler does nothing. -/
theorem mtriple_skip (P0 : Session → Ctx → Prop)
    (h : ∀ s c, P0 s c → GI s c) :
    MTriple P0 (pure () : M Unit) (fun _ => GI) GI :=
  mtriple_conseq (mtriple_pure P0 () GI)
    (fun _ _ hp => hp) (fun _ _ _ hq => h _ _ hq.2) (fun _ _ he => he)

theorem mtriple_handle_set_resume_text (txt : PyStr) :
    MTriple GI (handle_set_resume_text txt) (fun _ => GI) GI := by
  unfold handle_set_resume_text
  refine mtriple_bind (mtriple_getS GI GI) (fun a => ?_)
  refine mtriple_ite _ (fun _ => mtriple_skip _ (fun s c h => h.2)) (fun _ => ?_)
  exact mtriple_conseq (mtriple_modify_keep _ (fun s => rfl) (fun s => rfl))
    (fun s c h => h.2) (fun x s c h => h) (fun s c h => h)

theorem mtriple_handle_replace_resume :
    MTriple GI handle_replace_resume (fun _ => GI) GI := by
  unfold handle_replace_resume
  refine mtriple_bind (mtriple_getS GI GI) (fun a => ?_)
  refine mtriple_ite _ (fun _ => ?_) (fun _ => mtriple_skip _ (fun s c h => h.2))
  refine mtriple_conseq (mtriple_modifyS _ (fun _ s c => GI s c) GI) ?_ ?_ ?_
  · intro s c h
    exact ⟨h.2.1, SessInv_update_resume_none s _ c rfl rfl h.2.2⟩
  · exact fun x s c h => h
  · exact fun s c h => h

theorem mtriple_handle_upload_resume (n : PyStr) (sz : Nat) (mi : PyStr) :
    MTriple GI (handle_upload_resume n sz mi) (fun _ => GI) GI := by
  unfold handle_upload_resume
  refine mtriple_bind (mtriple_getS GI GI) (fun a => ?_)
  refine mtriple_ite _ (fun _ => mtriple_skip _ (fun s c h => h.2)) (fun _ => ?_)
  have hbody : MTriple GI
      (doUpload true >>= fun h =>
        modifyS (fun s2 => { s2 with resume_meta := some ⟨n, sz, mi, h⟩ }))
      (fun _ => GI) GI := by
    refine mtriple_bind (mtriple_conseq
      (mtriple_doUpload true (fun _ _ => True) (fun _ _ _ _ _ _ => trivial))
      (fun s c h => ⟨h, trivial⟩) (fun x s c h => h) (fun s c h => h.1))
      (fun h => ?_)
    refine mtriple_conseq (mtriple_modifyS _ (fun _ s c => GI s c) GI) ?_ ?_ ?_
    · intro s c hq
      obtain ⟨hgi, -, hR⟩ := hq
      exact ⟨hgi.1,
        SessInv_update_resume_some s _ c ⟨n, sz, mi, h⟩ rfl rfl (hR rfl) hgi.2⟩
    · exact fun x s c h2 => h2
    · exact fun s c h2 => h2
  exact mtriple_conseq (mtriple_tryShow hbody GI)
    (fun s c h => h.2) (fun x s c h => h.elim (fun h2 => h2) (fun h2 => h2))
    (fun s c h => h)

/-- The shared body of the two JD-upload handlers: upload, poll,
store `last_jd_meta` (via `f`), run the flow. -/
theorem mtriple_upload_jd_body (n : PyStr) (sz : Nat) (mi : PyStr)
    (f : Nat → Session → Session)
    (hfr : ∀ h s, (f h s).resume_meta = s.resume_meta)
    (hfj : ∀ h s, (f h s).last_jd_meta = some (⟨n, sz, mi, h⟩ : FileMeta)) :
    MTriple GI
      (doUpload false >>= fun h =>
        doPoll [h] >>= fun _ =>
        modifyS (f h) >>= fun _ =>
        run_autotailor_flow (some ⟨n, sz, mi, h⟩) [])
      (fun _ => GI) GI := by
  refine mtriple_bind (mtriple_conseq
    (mtriple_doUpload false (fun _ _ => True) (fun _ _ _ _ _ _ => trivial))
    (fun s c h => ⟨h, trivial⟩) (fun x s c h => h.1) (fun s c h => h.1))
    (fun h => ?_)
  refine mtriple_bind (mtriple_conseq
    (mtriple_doPoll [h] (fun _ _ => True) (fun _ _ _ _ _ _ => trivial) GI)
    (fun s c hg => ⟨hg, trivial⟩)
    (fun x s c hq => And.intro hq.1 (hq.2.2 h (by simp)))
    (fun s c he => he))
    (fun u => ?_)
  have hmod : MTriple (fun s c => GI s c ∧ handleInP c h) (modifyS (f h))
      (fun _ s c => GI s c ∧ handleInP c h) GI := by
    refine mtriple_conseq
      (mtriple_modifyS (f h) (fun _ s c => GI s c ∧ handleInP c h) GI) ?_ ?_ ?_
    · intro s c hq
      obtain ⟨hgi, hInP⟩ := hq
      exact ⟨⟨hgi.1,
        SessInv_update_jd_some s _ c ⟨n, sz, mi, h⟩ (hfr h s) (hfj h s) hInP hgi.2⟩, hInP⟩
    · exact fun x s c h2 => h2
    · exact fun s c h2 => h2
  refine mtriple_bind hmod (fun u2 => ?_)
  refine mtriple_conseq (mtriple_run_autotailor_flow (some ⟨n, sz, mi, h⟩) []) ?_ ?_ ?_
  · intro s c hq
    refine ⟨hq.1, fun m hm => ?_⟩
    cases hm
    exact hq.2
  · exact fun x s c h2 => h2
  · exact fun s c h2 => h2

theorem mtriple_handle_upload_jd (n : PyStr) (sz : Nat) (mi : PyStr) :
    MTriple GI (handle_upload_jd n sz mi) (fun _ => GI) GI := by
  unfold handle_upload_jd
  refine mtriple_bind (mtriple_getS GI GI) (fun a => ?_)
  refine mtriple_ite _ (fun _ => ?_) (fun _ => mtriple_skip _ (fun s c h => h.2))
  exact mtriple_conseq
    (mtriple_tryShow (mtriple_upload_jd_body n sz mi
      (fun h s2 => { s2 with last_jd_meta := some ⟨n, sz, mi, h⟩ })
      (fun h s => rfl) (fun h s => rfl)) GI)
    (fun s c h => h.2) (fun x s c h => h.elim (fun h2 => h2) (fun h2 => h2))
    (fun s c h => h)

theorem mtriple_handle_upload_next_jd (n : PyStr) (sz : Nat) (mi : PyStr) :
    MTriple GI (handle_upload_next_jd n sz mi) (fun _ => GI) GI := by
  unfold handle_upload_next_jd
  refine mtriple_bind (mtriple_getS GI GI) (fun a => ?_)
  refine mtriple_ite _ (fun _ => ?_) (fun _ => mtriple_skip _ (fun s c h => h.2))
  exact mtriple_conseq
    (mtriple_tryShow (mtriple_upload_jd_body n sz mi
      (fun h s2 => { s2 with last_jd_meta := some ⟨n, sz, mi, h⟩, jd_text_temp := [] })
      (fun h s => rfl) (fun h s => rfl)) GI)
    (fun s c h => h.2) (fun x s c h => h.elim (fun h2 => h2) (fun h2 => h2))
    (fun s c h => h)

theorem mtriple_handle_paste_jd (txt : PyStr) :
    MTriple GI (handle_paste_jd txt) (fun _ => GI) GI := by
  unfold handle_paste_jd
  refine mtriple_bind (mtriple_getS GI GI) (fun a => ?_)
  refine mtriple_ite _ (fun _ => ?_) (fun _ => mtriple_skip _ (fun s c h => h.2))
  refine mtriple_bind (mtriple_conseq (mtriple_modify_keep _ (fun s => rfl) (fun s => rfl))
    (fun s c h => h.2) (fun x s c h => h) (fun s c h => h)) (fun u => ?_)
  refine mtriple_ite _ (fun _ => ?_) (fun _ => mtriple_skip _ (fun s c h => h))
  refine mtriple_bind (mtriple_modify_jd_none _ (fun s => rfl) (fun s => rfl)) (fun u2 => ?_)
  refine mtriple_conseq (mtriple_run_autotailor_flow none txt) ?_ ?_ ?_
  · exact fun s c h => ⟨h, fun m hm => by cases hm⟩
  · exact fun x s c h => h
  · exact fun s c h => h

theorem mtriple_handle_paste_next_jd (txt : PyStr) :
    MTriple GI (handle_paste_next_jd txt) (fun _ => GI) GI := by
  unfold handle_paste_next_jd
  refine mtriple_bind (mtriple_getS GI GI) (fun a => ?_)
  refine mtriple_ite _ (fun _ => ?_) (fun _ => mtriple_skip _ (fun s c h => h.2))
  refine mtriple_ite _ (fun _ => ?_) (fun _ => mtriple_skip _ (fun s c h => h.2))
  refine mtriple_bind (mtriple_conseq (mtriple_modify_jd_none _ (fun s => rfl) (fun s => rfl))
    (fun s c h => h.2) (fun x s c h => h) (fun s c h => h)) (fun u2 => ?_)
  refine mtriple_conseq (mtriple_run_autotailor_flow none txt) ?_ ?_ ?_
  · exact fun s c h => ⟨h, fun m hm => by cases hm⟩
  · exact fun x s c h => h
  · exact fun s c h => h

theorem mtriple_handle_event (e : Event) :
    MTriple GI (handle_event e) (fun _ => GI) GI := by
  cases e with
  | setResumeText txt => exact mtriple_handle_set_resume_text txt
  | uploadResume n sz m => exact mtriple_handle_upload_resume n sz m
  | replaceResume => exact mtriple_handle_replace_resume
  | uploadJD n sz m => exact mtriple_handle_upload_jd n sz m
  | pasteJD t => exact mtriple_handle_paste_jd t
  | uploadNextJD n sz m => exact mtriple_handle_upload_next_jd n sz m
  | pasteNextJD t => exact mtriple_handle_paste_next_jd t
  | chatPrompt t => exact mtriple_handle_chat_prompt t

/-- The global invariant holds after any sequence of page reruns. -/
theorem run_events_GI (evs : List Event) :
    ∀ s c, GI s c → GI (run_events s c evs).1 (run_events s c evs).2 := by
  induction evs with
  | nil => exact fun s c h => h
  | cons e rest ih =>
    intro s c h
    simp only [run_events, run_event]
    rcases hres : handle_event e (s, c) with ⟨r, s1, c1⟩
    have hstep := mtriple_handle_event e s c h
    cases r with
    | val a => exact ih s1 c1 (hstep.1 a s1 c1 hres)
    | exn er => exact ih s1 c1 (hstep.2 er s1 c1 hres)

/-- C1 counterexample: upload a resume, then paste a JD.  The
AutoTailor flow attaches the resume's remote handle to its generation
requests even though no `ensure_active_files` poll was ever run on it
(the resume upload handler, src/app.py lines 490–498, never calls
`ensure_active_files`), so the trace violates the claimed
poll-before-attach discipline. -/
theorem C1_counterexample_resume_attached_unpolled :
    attachesPolledOnly []
      ((run_events initSession
        (initCtx (fun _ => some "[END_RESUME]".data) (fun _ => false) (fun _ => false))
        [Event.uploadResume "resume.pdf".data 10 "application/pdf".data,
         Event.pasteJD "a job description".data]).2.trace) = false := by
  decide

/-- C1 amended: in every reachable trace of the session machine, every
handle attached to a generation request either completed an
`ensure_active_files` poll beforehand (this holds for every JD upload,
which is polled to ACTIVE-or-timeout immediately after upload and
before the flow attaches it) or entered the session through the resume
uploader, whose handle the code attaches without ever polling it. -/
theorem C1_amended_poll_before_attach_except_resume
    (reply : Nat → Option PyStr) (uploadFails : Nat → Bool)
    (fm : PyStr → Bool) (evs : List Event) :
    attachesPolledOrResume [] []
      ((run_events initSession (initCtx reply uploadFails fm) evs).2.trace) = true := by
  have h0 : GI initSession (initCtx reply uploadFails fm) := by
    refine ⟨rfl, ?_, ?_⟩
    · intro m hm
      exact absurd hm (by simp [initSession])
    · intro m hm
      exact absurd hm (by simp [initSession])
  exact (run_events_GI evs initSession (initCtx reply uploadFails fm) h0).1

end ReadySetRole
